import Mathlib

/-!
Shallow embedding of the EduChain credential portal (browser local-storage
CRUD layer, pinning-service adapter, admin dashboard handlers, student
dashboard verification history, and the on-chain `EduChain.sol` registry),
together with proofs settling the specification claims about it.

Browser `localStorage` is modelled as an association list from string keys
to stored values.  Since `localStorage` physically stores strings produced
by `JSON.stringify` and read back by `JSON.parse`, a stored value is
modelled as an inductive `Val` covering the JSON shapes this application
writes, plus plain strings; `render` gives the serialized string view
(used by the JavaScript code for substring probing) and `jsTruthy` models
JavaScript truthiness of the stored string (`null` and `""` are falsy).
-/

/-- `isPrefixL n h` : the char list `n` is a prefix of `h`. -/
def isPrefixL : List Char → List Char → Bool
  | [], _ => true
  | _ :: _, [] => false
  | a :: as, b :: bs => a == b && isPrefixL as bs

/-- `hasSubL n h` : the char list `n` occurs contiguously inside `h`. -/
def hasSubL (n : List Char) : List Char → Bool
  | [] => isPrefixL n []
  | c :: t => isPrefixL n (c :: t) || hasSubL n t

/-- Model of JavaScript `hay.includes(needle)`. -/
def jsIncludes (hay needle : String) : Bool :=
  hasSubL needle.data hay.data

/-- Model of JavaScript `s.startsWith(p)`, written over the character
lists so that it evaluates by kernel reduction. -/
def jsStartsWith (s p : String) : Bool := isPrefixL p.data s.data

/-- Model of JavaScript `s.toLowerCase()` (ASCII-adequate), written over
the character list so that it evaluates by kernel reduction. -/
def jsToLower (s : String) : String := String.mk (s.data.map Char.toLower)

/-- Credential record (`Credential` interface in `credentialService.ts`). -/
structure Cred where
  id : String
  title : String
  description : String
  studentName : String
  studentWallet : String
  issuerName : String
  issuerWallet : String
  issueDate : Nat
  expiryDate : Option Nat := none
  metadata : List (String × String) := []
deriving DecidableEq

/-- User / transaction record (the `PendingUser` and `TransactionData`
interfaces share this shape; optional fields model absent JS properties). -/
structure UserRec where
  address : String
  role : String
  timestamp : Nat
  paymentConfirmed : Bool := false
  transactionHash : Option String := none
  ipfsHash : Option String := none
  status : Option String := none
  additionalData : Option Cred := none
deriving DecidableEq

/-- Verification-history record built by `addVerificationRecord`. -/
structure VRec where
  id : String
  credentialId : String
  credentialTitle : String
  verifierName : String
  verifierAddress : String
  timestamp : Nat
  status : String
deriving DecidableEq

/-- Profile blob written by `handleRoleSelect` under `profile_<addr>`. -/
structure ProfileRec where
  address : String
  role : String
  timestamp : Nat
  status : String
deriving DecidableEq

/-- A value stored in `localStorage`: either a plain string or one of the
JSON shapes this application serializes. -/
inductive Val where
  | s (v : String)
  | users (l : List UserRec)
  | creds (l : List Cred)
  | hist (l : List VRec)
  | strs (l : List String)
  | smap (l : List (String × String))
  | profile (p : ProfileRec)
deriving DecidableEq

/-- Quote a string as a JSON literal (escaping is irrelevant to the claims). -/
def jq (s : String) : String := "\"" ++ s ++ "\""

/-- Comma-join rendered parts. -/
def joinComma : List String → String
  | [] => ""
  | [x] => x
  | x :: y :: t => x ++ "," ++ joinComma (y :: t)

/-- `JSON.stringify` view of an optional string field (omitted if absent). -/
def renderOptStr (field : String) : Option String → String
  | none => ""
  | some v => "," ++ jq field ++ ":" ++ jq v

/-- `JSON.stringify` view of a credential. -/
def renderCred (c : Cred) : String :=
  "\x7b" ++ jq "id" ++ ":" ++ jq c.id
    ++ "," ++ jq "title" ++ ":" ++ jq c.title
    ++ "," ++ jq "description" ++ ":" ++ jq c.description
    ++ "," ++ jq "studentName" ++ ":" ++ jq c.studentName
    ++ "," ++ jq "studentWallet" ++ ":" ++ jq c.studentWallet
    ++ "," ++ jq "issuerName" ++ ":" ++ jq c.issuerName
    ++ "," ++ jq "issuerWallet" ++ ":" ++ jq c.issuerWallet
    ++ "," ++ jq "issueDate" ++ ":" ++ toString c.issueDate
    ++ "\x7d"

/-- `JSON.stringify` view of a user/transaction record. -/
def renderUser (u : UserRec) : String :=
  "\x7b" ++ jq "address" ++ ":" ++ jq u.address
    ++ "," ++ jq "role" ++ ":" ++ jq u.role
    ++ "," ++ jq "timestamp" ++ ":" ++ toString u.timestamp
    ++ "," ++ jq "paymentConfirmed" ++ ":" ++ toString u.paymentConfirmed
    ++ renderOptStr "transactionHash" u.transactionHash
    ++ renderOptStr "ipfsHash" u.ipfsHash
    ++ renderOptStr "status" u.status
    ++ (match u.additionalData with
        | none => ""
        | some c => "," ++ jq "credential" ++ ":" ++ renderCred c)
    ++ "\x7d"

/-- `JSON.stringify` view of a verification record. -/
def renderVRec (r : VRec) : String :=
  "\x7b" ++ jq "id" ++ ":" ++ jq r.id
    ++ "," ++ jq "credentialId" ++ ":" ++ jq r.credentialId
    ++ "," ++ jq "credentialTitle" ++ ":" ++ jq r.credentialTitle
    ++ "," ++ jq "verifierName" ++ ":" ++ jq r.verifierName
    ++ "," ++ jq "verifierAddress" ++ ":" ++ jq r.verifierAddress
    ++ "," ++ jq "timestamp" ++ ":" ++ toString r.timestamp
    ++ "," ++ jq "status" ++ ":" ++ jq r.status
    ++ "\x7d"

/-- `JSON.stringify` view of a string-to-string record object. -/
def renderSMap (l : List (String × String)) : String :=
  "\x7b" ++ joinComma (l.map (fun kv => jq kv.fst ++ ":" ++ jq kv.snd)) ++ "\x7d"

/-- `JSON.stringify` view of a profile blob. -/
def renderProfile (p : ProfileRec) : String :=
  "\x7b" ++ jq "address" ++ ":" ++ jq p.address
    ++ "," ++ jq "role" ++ ":" ++ jq p.role
    ++ "," ++ jq "timestamp" ++ ":" ++ toString p.timestamp
    ++ "," ++ jq "status" ++ ":" ++ jq p.status
    ++ "\x7d"

/-- The string actually sitting in `localStorage` for a stored value. -/
def render : Val → String
  | .s v => v
  | .users l => "[" ++ joinComma (l.map renderUser) ++ "]"
  | .creds l => "[" ++ joinComma (l.map renderCred) ++ "]"
  | .hist l => "[" ++ joinComma (l.map renderVRec) ++ "]"
  | .strs l => "[" ++ joinComma (l.map jq) ++ "]"
  | .smap l => renderSMap l
  | .profile p => renderProfile p

/-- JavaScript truthiness of a present stored value (only `""` is falsy). -/
def jsTruthy (v : Val) : Bool := render v != ""

/-- Browser local storage: an association list of key/value pairs. -/
abbrev Store := List (String × Val)

/-- `localStorage.getItem`. -/
def getItem (st : Store) (k : String) : Option Val :=
  (st.find? (fun kv => kv.fst == k)).map (fun kv => kv.snd)

/-- `localStorage.setItem`: replace in place, or append a fresh key. -/
def setItem : Store → String → Val → Store
  | [], k, v => [(k, v)]
  | (k', v') :: t, k, v =>
      if k' == k then (k, v) :: t else (k', v') :: setItem t k v

/-!
## Role resolution (`checkIfUserHasRole`, part_000 lines 270-332)

The routine returns a boolean and may also write the direct role record.
Anywhere the JavaScript would throw inside the surrounding `try` (an
ill-shaped blob under `approvedUsers`), the model returns `(false, st)`
exactly as the `catch` does.  Ill-shaped array blobs whose elements lack
the probed fields are modelled like the real dynamic lookup: no match.
-/

/-- Key of the direct role record for a (lower-cased) address. -/
def roleKey (a : String) : String := "role_" ++ a

/-- `user.address && user.address.toLowerCase() === normalizedAddress`. -/
def userMatches (a : String) (u : UserRec) : Bool :=
  u.address != "" && jsToLower u.address == a

/-- Keys treated as transaction-shaped by method 3 of `checkIfUserHasRole`. -/
def isTxKey (k : String) : Bool :=
  jsStartsWith k "tx_" || jsIncludes k "Transaction" || jsIncludes k "ipfsMappings_"

/-- Method 4: some key contains the address as a substring and its stored
value is truthy. -/
def checkRoleM4 (st : Store) (a : String) : Bool × Store :=
  (st.any (fun kv => jsIncludes kv.fst a && jsTruthy kv.snd), st)

/-- Method 3: some transaction-shaped key has a truthy payload whose
lower-cased serialized form contains the address; on a hit the role
defaults to "student" and is written to the direct record. -/
def checkRoleM3 (st : Store) (a : String) : Bool × Store :=
  match st.find? (fun kv =>
      isTxKey kv.fst && jsTruthy kv.snd
        && jsIncludes (jsToLower (render kv.snd)) a) with
  | some _ => (true, setItem st (roleKey a) (Val.s "student"))
  | none => checkRoleM4 st a

/-- Method 2: look the address up in the `approvedUsers` array; on a hit
the found role is cached in the direct record.  A stored blob that is not
a users array either yields no match (arrays of other records: the probed
`address` field is absent) or throws (non-array blobs), which the
enclosing `catch` turns into `false`. -/
def checkRoleM2 (st : Store) (a : String) : Bool × Store :=
  match getItem st "approvedUsers" with
  | none => checkRoleM3 st a
  | some v =>
      if jsTruthy v then
        match v with
        | Val.users l =>
            match l.find? (userMatches a) with
            | some u => (true, setItem st (roleKey a) (Val.s u.role))
            | none => checkRoleM3 st a
        | Val.creds _ => checkRoleM3 st a
        | Val.hist _ => checkRoleM3 st a
        | Val.strs _ => checkRoleM3 st a
        | _ => (false, st)
      else checkRoleM3 st a

/-- `checkIfUserHasRole` (part_000 lines 270-332). -/
def checkIfUserHasRole (st : Store) (address : String) : Bool × Store :=
  let a := jsToLower address
  match getItem st (roleKey a) with
  | some v => if jsTruthy v then (true, st) else checkRoleM2 st a
  | none => checkRoleM2 st a

/-!
## Role selection (`handleRoleSelect`, part_000 lines 392-469)
-/

/-- `try { data ? JSON.parse(data) : [] } catch { [] }` for a users array;
ill-shaped blobs are collapsed to `[]` (the claims' theorems restrict to
well-shaped stores where this never fires). -/
def parseUsersOr : Option Val → List UserRec
  | none => []
  | some v =>
      if jsTruthy v then
        match v with
        | Val.users l => l
        | _ => []
      else []

/-- `handleRoleSelect` storage effect (part_000 lines 392-469). -/
def handleRoleSelect (st : Store) (address role : String) (now : Nat) : Store :=
  let a := jsToLower address
  let newUser : UserRec :=
    { address := a, role := role, timestamp := now,
      paymentConfirmed := true, status := some "approved" }
  let approved := parseUsersOr (getItem st "approvedUsers")
  let approved2 := approved.filter (fun u => jsToLower u.address != a) ++ [newUser]
  let st1 := setItem st "approvedUsers" (Val.users approved2)
  let st2 := setItem st1 (roleKey a) (Val.s role)
  let st3 := setItem st2 ("user_role_" ++ a) (Val.s role)
  let st4 := setItem st3 ("onboarded_" ++ a) (Val.s "true")
  setItem st4 ("profile_" ++ a)
    (Val.profile { address := a, role := role, timestamp := now, status := "active" })

/-!
## Pinning-service adapter (`ipfsService`, part_000 lines 1122-1298)
-/

/-- Replace-or-append on the first matching lower-cased address
(`findIndex` followed by in-place update, else `push`). -/
def upsertUser : List UserRec → UserRec → List UserRec
  | [], d => [d]
  | u :: t, d =>
      if jsToLower u.address == jsToLower d.address then d :: t
      else u :: upsertUser t d

/-- `storeDataInLocalStorage` (part_000 lines 1228-1258): upsert the
record into the `pendingUsers` array.  A non-array blob under
`pendingUsers` makes the JavaScript throw inside its own `try`, so
nothing is written in that case. -/
def storeDataInLocalStorage (st : Store) (d : UserRec) : Store :=
  match getItem st "pendingUsers" with
  | none => setItem st "pendingUsers" (Val.users [d])
  | some v =>
      if jsTruthy v then
        match v with
        | Val.users l => setItem st "pendingUsers" (Val.users (upsertUser l d))
        | _ => st
      else setItem st "pendingUsers" (Val.users [d])

/-- JavaScript object property assignment on a string record. -/
def smapSet : List (String × String) → String → String → List (String × String)
  | [], k, v => [(k, v)]
  | (k', v') :: t, k, v =>
      if k' == k then (k, v) :: t else (k', v') :: smapSet t k v

/-- `storeTxHashMapping` (part_000 lines 1263-1298). -/
def storeTxHashMapping (st : Store) (address txHash ipfsHash : String) : Store :=
  let mappings :=
    match getItem st "txToIpfsMappings" with
    | some (Val.smap l) => l
    | _ => []
  let mappings2 := smapSet mappings txHash ipfsHash
  let addrKey := "ipfsMappings_" ++ jsToLower address
  let addrList :=
    match getItem st addrKey with
    | some (Val.strs l) => l
    | _ => []
  let addrList2 := if addrList.contains ipfsHash then addrList else addrList ++ [ipfsHash]
  let st1 := setItem st "txToIpfsMappings" (Val.smap mappings2)
  setItem st1 addrKey (Val.strs addrList2)

/-- `storeTransactionData` (part_000 lines 1150-1201).  The pinning
interaction is abstracted by two parameters: whether Pinata credentials
are configured, and the pinning response (`some hash` on HTTP success,
`none` on any network/API failure).  Every failure path falls back to
`storeDataInLocalStorage` and then rethrows. -/
def storeTransactionData (st : Store) (d : UserRec)
    (configured : Bool) (response : Option String) :
    Store × Except String String :=
  if configured then
    match response with
    | some h =>
        (storeTxHashMapping st d.address (d.transactionHash.getD "") h,
         Except.ok h)
    | none => (storeDataInLocalStorage st d, Except.error "Error pinning to IPFS")
  else (storeDataInLocalStorage st d, Except.error "Pinata API keys not configured")

/-!
## Credential service (`credentialService.ts`)
-/

/-- `existing ? JSON.parse(existing) : []` for a credential array; a
blob that is not a credential array makes the subsequent code throw
(modelled as `Except.error`, absorbed by each caller's `catch`). -/
def credListOf : Option Val → Except Unit (List Cred)
  | none => Except.ok []
  | some v =>
      if jsTruthy v then
        match v with
        | Val.creds l => Except.ok l
        | _ => Except.error ()
      else Except.ok []

/-- `saveCredentialToLocalStorage` (credentialService.ts lines 64-91):
push the credential onto the institution list, then onto the student
list.  A parse failure on the student key after the institution write
leaves the partial write in place, exactly as the single `catch` does. -/
def saveCredentialToLocalStorage (st : Store) (c : Cred)
    (institutionAddress : String) : Store :=
  let instKey := "credentials_" ++ jsToLower institutionAddress
  let studKey := "student_credentials_" ++ jsToLower c.studentWallet
  match credListOf (getItem st instKey) with
  | Except.error _ => st
  | Except.ok il =>
      let st1 := setItem st instKey (Val.creds (il ++ [c]))
      match credListOf (getItem st1 studKey) with
      | Except.error _ => st1
      | Except.ok sl => setItem st1 studKey (Val.creds (sl ++ [c]))

/-- Result record of `issueCredential`. -/
structure IssueRes where
  success : Bool
  hash : Option String := none
  error : Option String := none
deriving DecidableEq

/-- `issueCredential` (credentialService.ts lines 28-59): pin a
transaction record wrapping the credential, then save locally; on a
pinning failure the `catch` also saves locally and reports failure. -/
def issueCredential (st : Store) (c : Cred) (institutionAddress : String)
    (now : Nat) (configured : Bool) (response : Option String) :
    Store × IssueRes :=
  let txd : UserRec :=
    { address := institutionAddress, role := "institution", timestamp := now,
      transactionHash := some ("credential_" ++ c.id),
      paymentConfirmed := true, status := some "approved",
      additionalData := some c }
  match storeTransactionData st txd configured response with
  | (st1, Except.ok h) =>
      (saveCredentialToLocalStorage st1 c institutionAddress,
       { success := true, hash := some h })
  | (st1, Except.error e) =>
      (saveCredentialToLocalStorage st1 c institutionAddress,
       { success := false, error := some e })

/-- Result record of `verifyCredential`. -/
structure VerifyRes where
  isValid : Bool
  credential : Option Cred := none
  message : String
deriving DecidableEq

/-- One of the two sequential key-family scans of `verifyCredential`:
find, in store order, the first credential with the given id inside a
value whose key starts with `fam`. -/
def scanFamily (fam id : String) : Store → Except Unit (Option Cred)
  | [] => Except.ok none
  | (k, v) :: t =>
      if jsStartsWith k fam then
        match credListOf (some v) with
        | Except.error _ => Except.error ()
        | Except.ok l =>
            match l.find? (fun c => c.id == id) with
            | some c => Except.ok (some c)
            | none => scanFamily fam id t
      else scanFamily fam id t

/-- Not-found message of `verifyCredential`. -/
def notFoundMsg : String :=
  "Credential not found. It may have been revoked or does not exist."

/-- The local fallback of `verifyCredential`: scan every
`student_credentials_` key, then every `credentials_` key, for the id. -/
def verifyLocal (st : Store) (credentialId : String) : VerifyRes :=
  match scanFamily "student_credentials_" credentialId st with
  | Except.error _ =>
      { isValid := false, message := "Unknown error verifying credential." }
  | Except.ok (some c) =>
      { isValid := true, credential := some c,
        message := "Credential successfully verified." }
  | Except.ok none =>
      match scanFamily "credentials_" credentialId st with
      | Except.error _ =>
          { isValid := false, message := "Unknown error verifying credential." }
      | Except.ok (some c) =>
          { isValid := true, credential := some c,
            message := "Credential successfully verified." }
      | Except.ok none => { isValid := false, message := notFoundMsg }

/-- `verifyCredential` (credentialService.ts lines 96-157).  The remote
retrieval is abstracted by `remote`: the transaction record served by the
gateway for the supplied hash, or `none` when retrieval fails (it is only
consulted when `ipfsHash` is supplied). -/
def verifyCredential (st : Store) (credentialId : String)
    (ipfsHash : Option String) (remote : Option UserRec) : VerifyRes :=
  let remoteHit : Option Cred :=
    match ipfsHash with
    | none => none
    | some _ =>
        match remote with
        | none => none
        | some d =>
            match d.additionalData with
            | some c => if c.id == credentialId then some c else none
            | none => none
  match remoteHit with
  | some c =>
      { isValid := true, credential := some c,
        message := "Credential successfully verified on IPFS." }
  | none => verifyLocal st credentialId

/-!
## Admin dashboard handlers (`AdminDashboard.tsx`)
-/

/-- JavaScript `o || d` for an optional string. -/
def jsOrStr (o : Option String) (d : String) : String :=
  match o with
  | some t => if t == "" then d else t
  | none => d

/-- `handleApprove` (AdminDashboard.tsx lines 204-283).  `configured` and
`response` abstract the pinning attempt made for the mirroring write (see
`storeTransactionData`); its failure is caught and only logged, but the
fallback inside `storeTransactionData` has already run by then.  On
success the `approvedUser` object aliased inside the stored array gains
the `ipfsHash` field and the array is re-serialized. -/
def handleApprove (st : Store) (user : UserRec) (now : Nat)
    (configured : Bool) (response : Option String) : Store :=
  let a := jsToLower user.address
  let pending := parseUsersOr (getItem st "pendingUsers")
  let pending2 := pending.filter (fun u => jsToLower u.address != a)
  let st1 := setItem st "pendingUsers" (Val.users pending2)
  let approved := parseUsersOr (getItem st1 "approvedUsers")
  let approvedUser : UserRec :=
    { user with paymentConfirmed := true, status := some "approved", timestamp := now }
  let st2 := setItem st1 "approvedUsers" (Val.users (approved ++ [approvedUser]))
  let st3 := setItem st2 (roleKey a) (Val.s user.role)
  let approvalData : UserRec :=
    { address := user.address, role := user.role, timestamp := now,
      transactionHash := some (jsOrStr user.transactionHash "admin-approved"),
      paymentConfirmed := true, status := some "approved",
      ipfsHash := user.ipfsHash }
  match storeTransactionData st3 approvalData configured response with
  | (st4, Except.ok h) =>
      setItem st4 "approvedUsers"
        (Val.users (approved ++ [{ approvedUser with ipfsHash := some h }]))
  | (st4, Except.error _) => st4

/-- `handleAddUser` storage effect after a successful fee payment
(AdminDashboard.tsx lines 370-489).  When Pinata is not configured the
code throws locally before calling `storeTransactionData`, so no
fallback write happens; a pinning failure inside `storeTransactionData`
does write the fallback.  Nothing is written when the address is already
in the approved list. -/
def handleAddUser (st : Store) (newUserAddress newUserRole : String)
    (now : Nat) (txHash : String)
    (configured : Bool) (response : Option String) : Store :=
  let newUser : UserRec :=
    { address := jsToLower newUserAddress, role := newUserRole, timestamp := now,
      paymentConfirmed := true, transactionHash := some txHash,
      status := some "approved" }
  let pinned :=
    if configured then storeTransactionData st newUser true response
    else (st, Except.error "Pinata not configured")
  let st1 := pinned.fst
  let newUser2 :=
    match pinned.snd with
    | Except.ok h => { newUser with ipfsHash := some h }
    | Except.error _ => newUser
  let approved := parseUsersOr (getItem st1 "approvedUsers")
  if approved.any (fun u => jsToLower u.address == jsToLower newUserAddress) then st1
  else
    let st2 := setItem st1 "approvedUsers" (Val.users (approved ++ [newUser2]))
    setItem st2 (roleKey (jsToLower newUserAddress)) (Val.s newUserRole)

/-!
## Student dashboard verification history (part_002 lines 144-207)
-/

/-- `addVerificationRecord` (part_002 lines 162-189).  `historyState` is
the React state previously loaded from the connected account's history
key; `nonce` models the random id suffix. -/
def addVerificationRecord (st : Store) (account : Option String)
    (historyState : List VRec) (credentialId credentialTitle : String)
    (verifierName verifierAddress : String) (status : String)
    (now : Nat) (nonce : String) : List VRec × Store :=
  match account with
  | none => (historyState, st)
  | some addr =>
      let r : VRec :=
        { id := "verify_" ++ toString now ++ "_" ++ nonce,
          credentialId := credentialId, credentialTitle := credentialTitle,
          verifierName := verifierName, verifierAddress := verifierAddress,
          timestamp := now, status := status }
      let updated := historyState ++ [r]
      (updated,
       setItem st ("verification_history_" ++ jsToLower addr) (Val.hist updated))

/-- `shareCredential` (part_002 lines 191-207): record the share in the
verification history via `addVerificationRecord`. -/
def shareCredential (st : Store) (account : Option String)
    (historyState : List VRec) (credential : Cred)
    (verifierName verifierAddress : String) (now : Nat) (nonce : String) :
    List VRec × Store :=
  if verifierName == "" || verifierAddress == "" then (historyState, st)
  else
    addVerificationRecord st account historyState credential.id credential.title
      verifierName verifierAddress "valid" now nonce

/-!
## On-chain registry (`contracts/EduChain.sol`)

Addresses are strings; the Solidity zero address is `zeroAddress`.
Mappings are association lists read through a default value, as Solidity
mappings are.  Reverting functions return `Except.error <reason>`.
The Solidity function names `issueCredential`, `verifyCredential` and
`getStudentCredentials` collide with the client-side service names, so
the contract embeddings carry a `chain` qualifier.
-/

/-- Solidity `address(0)`. -/
def zeroAddress : String := ""

/-- `Institution` struct. -/
structure Institution where
  name : String
  location : String
  isActive : Bool
  institutionAddress : String
deriving DecidableEq

/-- `Credential` struct of the contract. -/
structure ChainCredential where
  credentialId : String
  studentName : String
  institutionName : String
  courseName : String
  issueDate : Nat
  expiryDate : Nat
  isRevoked : Bool
  issuer : String
  student : String
deriving DecidableEq

/-- Zero value of the `Institution` mapping. -/
def defaultInstitution : Institution :=
  { name := "", location := "", isActive := false, institutionAddress := zeroAddress }

/-- Zero value of the `Credential` mapping. -/
def defaultCredential : ChainCredential :=
  { credentialId := "", studentName := "", institutionName := "", courseName := "",
    issueDate := 0, expiryDate := 0, isRevoked := false,
    issuer := zeroAddress, student := zeroAddress }

/-- Association-list read with a default (Solidity mapping read). -/
def assocGet {α : Type} (d : α) (l : List (String × α)) (k : String) : α :=
  match l.find? (fun kv => kv.fst == k) with
  | some kv => kv.snd
  | none => d

/-- Association-list write (Solidity mapping write). -/
def assocSet {α : Type} : List (String × α) → String → α → List (String × α)
  | [], k, v => [(k, v)]
  | (k', v') :: t, k, v =>
      if k' == k then (k, v) :: t else (k', v') :: assocSet t k v

/-- Contract storage. -/
structure ChainState where
  institutions : List (String × Institution) := []
  credentials : List (String × ChainCredential) := []
  studentCredentials : List (String × List String) := []
  institutionCount : Nat := 0
  credentialCount : Nat := 0
deriving DecidableEq

/-- `institutions[a]`. -/
def institutionsOf (s : ChainState) (a : String) : Institution :=
  assocGet defaultInstitution s.institutions a

/-- `credentials[id]`. -/
def credentialsOf (s : ChainState) (id : String) : ChainCredential :=
  assocGet defaultCredential s.credentials id

/-- `studentCredentials[a]`. -/
def studentCredentialsOf (s : ChainState) (a : String) : List String :=
  assocGet [] s.studentCredentials a

/-- `registerInstitution` (EduChain.sol lines 52-64). -/
def chainRegisterInstitution (s : ChainState) (sender : String)
    (name location : String) : Except String ChainState :=
  if (institutionsOf s sender).isActive then
    Except.error "Institution already registered"
  else
    Except.ok
      { s with
        institutions := assocSet s.institutions sender
          { name := name, location := location, isActive := true,
            institutionAddress := sender },
        institutionCount := s.institutionCount + 1 }

/-- `issueCredential` (EduChain.sol lines 66-98). -/
def chainIssueCredential (s : ChainState) (sender : String)
    (student studentName courseName : String) (expiryDate : Nat)
    (blockTimestamp : Nat) : Except String ChainState :=
  if (institutionsOf s sender).isActive then
    let instName := (institutionsOf s sender).name
    let credentialId :=
      instName ++ "-" ++ studentName ++ "-" ++ courseName ++ "-"
        ++ toString s.credentialCount
    let c : ChainCredential :=
      { credentialId := credentialId, studentName := studentName,
        institutionName := instName, courseName := courseName,
        issueDate := blockTimestamp, expiryDate := expiryDate,
        isRevoked := false, issuer := sender, student := student }
    Except.ok
      { s with
        credentials := assocSet s.credentials credentialId c,
        studentCredentials := assocSet s.studentCredentials student
          (studentCredentialsOf s student ++ [credentialId]),
        credentialCount := s.credentialCount + 1 }
  else Except.error "Not a registered institution"

/-- `revokeCredential` (EduChain.sol lines 100-106). -/
def chainRevokeCredential (s : ChainState) (sender : String)
    (credentialId : String) : Except String ChainState :=
  if (institutionsOf s sender).isActive then
    if (credentialsOf s credentialId).issuer == sender then
      if (credentialsOf s credentialId).isRevoked then
        Except.error "Credential already revoked"
      else
        Except.ok
          { s with
            credentials := assocSet s.credentials credentialId
              { credentialsOf s credentialId with isRevoked := true } }
    else Except.error "Not the original issuer"
  else Except.error "Not a registered institution"

/-- `verifyCredential` (EduChain.sol lines 108-124). -/
def chainVerifyCredential (s : ChainState) (blockTimestamp : Nat)
    (credentialId : String) : Bool :=
  let c := credentialsOf s credentialId
  if c.issuer == zeroAddress then false
  else if c.isRevoked then false
  else if blockTimestamp > c.expiryDate then false
  else true

/-- `getStudentCredentials` (EduChain.sol lines 126-128). -/
def chainGetStudentCredentials (s : ChainState) (a : String) : List String :=
  studentCredentialsOf s a

/-!
## Auxiliary views, well-formedness checkers, claim formalizations and
concrete example values
-/

/-- The users array stored under a key (as the application reads it). -/
def usersOf (st : Store) (k : String) : List UserRec :=
  parseUsersOr (getItem st k)

/-- The verification-history array stored under a key. -/
def histOf (st : Store) (k : String) : List VRec :=
  match getItem st k with
  | some (Val.hist l) => l
  | _ => []

/-- Lower-cased addresses of a users array. -/
def addrKeys (l : List UserRec) : List String :=
  l.map (fun u => jsToLower u.address)

/-- Each lower-cased address occurs at most once in both the
`pendingUsers` and the `approvedUsers` array. -/
def bothNodup (st : Store) : Prop :=
  (addrKeys (usersOf st "pendingUsers")).Nodup ∧
  (addrKeys (usersOf st "approvedUsers")).Nodup

/-- The key (if present) holds a users array. -/
def isUsersVal : Option Val → Bool
  | none => true
  | some (Val.users _) => true
  | some _ => false

/-- The value is a credential array. -/
def isCredsShaped : Val → Bool
  | Val.creds _ => true
  | _ => false

/-- Every key of either credential family holds a credential array. -/
def credsFamilyWF (st : Store) : Bool :=
  st.all (fun kv =>
    if jsStartsWith kv.fst "student_credentials_" || jsStartsWith kv.fst "credentials_"
    then isCredsShaped kv.snd else true)

/-- Every stored value is truthy (the application never stores `""`). -/
def allTruthy (st : Store) : Bool :=
  st.all (fun kv => jsTruthy kv.snd)

/-- `Except` success flag. -/
def runOk {ε α : Type} : Except ε α → Bool
  | Except.ok _ => true
  | Except.error _ => false

/-- Claim C1, check (1): the direct role record exists. -/
def claimCheck1 (st : Store) (a : String) : Bool :=
  (getItem st (roleKey a)).isSome

/-- Claim C1, check (2): the address is in the approvedUsers list. -/
def claimCheck2 (st : Store) (a : String) : Bool :=
  match getItem st "approvedUsers" with
  | some (Val.users l) => l.any (fun u => jsToLower u.address == a)
  | _ => false

/-- Claim C1, check (3): some transaction-keyed record's payload contains
the lower-cased address. -/
def claimCheck3 (st : Store) (a : String) : Bool :=
  st.any (fun kv => isTxKey kv.fst && jsIncludes (jsToLower (render kv.snd)) a)

/-- Claim C1, check (4): some key contains the address as a substring. -/
def claimCheck4 (st : Store) (a : String) : Bool :=
  st.any (fun kv => jsIncludes kv.fst a)

/-- Claim C2 as stated: on a successful pinning attempt `issueCredential`
reports success with the hash and performs no local credential-list
write; local persistence happens only on failure. -/
def claimC2 : Prop :=
  ∀ (st : Store) (c : Cred) (addr : String) (now : Nat) (h : String),
    (issueCredential st c addr now true (some h)).snd
        = { success := true, hash := some h, error := none } ∧
    getItem (issueCredential st c addr now true (some h)).fst
        ("student_credentials_" ++ jsToLower c.studentWallet)
      = getItem st ("student_credentials_" ++ jsToLower c.studentWallet) ∧
    getItem (issueCredential st c addr now true (some h)).fst
        ("credentials_" ++ jsToLower addr)
      = getItem st ("credentials_" ++ jsToLower addr)

/-- Claim C4 as stated: approving removes the user's lower-cased address
from `pendingUsers`, appends an approved entry to `approvedUsers`, writes
the direct role record, and a remote-mirroring failure leaves the local
pending-to-approved move intact. -/
def claimC4 : Prop :=
  ∀ (st : Store) (user : UserRec) (now : Nat) (configured : Bool)
      (response : Option String),
    isUsersVal (getItem st "pendingUsers") = true →
    isUsersVal (getItem st "approvedUsers") = true →
    (∀ u ∈ usersOf (handleApprove st user now configured response) "pendingUsers",
        jsToLower u.address ≠ jsToLower user.address) ∧
    (∃ au : UserRec,
        usersOf (handleApprove st user now configured response) "approvedUsers"
          = usersOf st "approvedUsers" ++ [au] ∧
        au.address = user.address ∧ au.role = user.role ∧
        au.status = some "approved" ∧ au.paymentConfirmed = true ∧
        au.timestamp = now) ∧
    getItem (handleApprove st user now configured response)
        (roleKey (jsToLower user.address)) = some (Val.s user.role)

/-- Claim C6 as stated: each of the four storage-writing operations
preserves "every lower-cased address occurs at most once in each of the
`pendingUsers` and `approvedUsers` arrays". -/
def claimC6 : Prop :=
  (∀ (st : Store) (d : UserRec),
      bothNodup st → bothNodup (storeDataInLocalStorage st d)) ∧
  (∀ (st : Store) (a role : String) (now : Nat),
      bothNodup st → bothNodup (handleRoleSelect st a role now)) ∧
  (∀ (st : Store) (user : UserRec) (now : Nat) (configured : Bool)
      (response : Option String),
      bothNodup st → bothNodup (handleApprove st user now configured response)) ∧
  (∀ (st : Store) (addr role : String) (now : Nat) (txHash : String)
      (configured : Bool) (response : Option String),
      bothNodup st →
      bothNodup (handleAddUser st addr role now txHash configured response))

/-- Claim C8 as stated: both credential operations revert exactly when
the caller is not a registered (active) institution, with no other
access-control condition. -/
def claimC8 : Prop :=
  ∀ (s : ChainState) (sender student studentName courseName : String)
      (expiryDate blockTimestamp : Nat) (credentialId : String),
    runOk (chainIssueCredential s sender student studentName courseName
        expiryDate blockTimestamp) = (institutionsOf s sender).isActive ∧
    runOk (chainRevokeCredential s sender credentialId)
      = (institutionsOf s sender).isActive

/-- Claim C9 as stated: each sharing event appends a verification record
to both the student-side and the verifier-side per-address histories. -/
def claimC9 : Prop :=
  ∀ (st : Store) (studentAddr : String) (cred : Cred)
      (verifierName verifierAddress : String) (now : Nat) (nonce : String),
    verifierName ≠ "" → verifierAddress ≠ "" →
    ∃ r : VRec,
      r.credentialId = cred.id ∧ r.credentialTitle = cred.title ∧
      r.verifierName = verifierName ∧ r.verifierAddress = verifierAddress ∧
      r.timestamp = now ∧
      histOf (shareCredential st (some studentAddr)
          (histOf st ("verification_history_" ++ jsToLower studentAddr)) cred
          verifierName verifierAddress now nonce).snd
        ("verification_history_" ++ jsToLower studentAddr)
        = histOf st ("verification_history_" ++ jsToLower studentAddr) ++ [r] ∧
      histOf (shareCredential st (some studentAddr)
          (histOf st ("verification_history_" ++ jsToLower studentAddr)) cred
          verifierName verifierAddress now nonce).snd
        ("verification_history_" ++ jsToLower verifierAddress)
        = histOf st ("verification_history_" ++ jsToLower verifierAddress) ++ [r]

/-- A concrete credential used by counterexamples and witnesses. -/
def exCred : Cred :=
  { id := "cred-1", title := "BSc", description := "d",
    studentName := "Stu", studentWallet := "0xS",
    issuerName := "Uni", issuerWallet := "0xI", issueDate := 10 }

/-- A concrete user record. -/
def exUser : UserRec :=
  { address := "0xAA", role := "student", timestamp := 1,
    paymentConfirmed := true, status := some "pending" }

/-- A store that already lists `exUser`'s address as approved. -/
def exStoreApproved : Store := [("approvedUsers", Val.users [exUser])]

/-- A store with `exUser` pending and nobody approved. -/
def exStorePending : Store := [("pendingUsers", Val.users [exUser])]

/-- Chain state with one registered institution and one issued credential
(institution `0xa`, student `0xs`). -/
def exChain : ChainState :=
  { institutions :=
      [("0xa", { name := "Uni", location := "C", isActive := true,
                 institutionAddress := "0xa" }),
       ("0xb", { name := "Col", location := "D", isActive := true,
                 institutionAddress := "0xb" })],
    credentials :=
      [("cred1", { credentialId := "cred1", studentName := "S",
                   institutionName := "Uni", courseName := "CS",
                   issueDate := 0, expiryDate := 100, isRevoked := false,
                   issuer := "0xa", student := "0xs" })],
    studentCredentials := [("0xs", ["cred1"])],
    institutionCount := 2, credentialCount := 1 }

/-- `exChain` after `cred1` has been revoked. -/
def exChainRevoked : ChainState :=
  { exChain with
    credentials :=
      [("cred1", { credentialId := "cred1", studentName := "S",
                   institutionName := "Uni", courseName := "CS",
                   issueDate := 0, expiryDate := 100, isRevoked := true,
                   issuer := "0xa", student := "0xs" })] }

/-- Claim C3's remote-hit condition: an IPFS hash was supplied and the
retrieved record wraps a credential with the probed id. -/
def remoteHitP (credentialId : String) (ipfsHash : Option String)
    (remote : Option UserRec) : Prop :=
  ipfsHash.isSome = true ∧
  ∃ d, remote = some d ∧ ∃ c, d.additionalData = some c ∧ c.id = credentialId

/-- Claim C3's local-hit condition: some key of the family holds a
credential array containing the probed id. -/
def localHitP (st : Store) (fam id : String) : Prop :=
  ∃ kv ∈ st, jsStartsWith kv.fst fam = true ∧
    ∃ l, kv.snd = Val.creds l ∧ ∃ c ∈ l, c.id = id

/-- Decidable equality for `Except` results (used by concrete witnesses). -/
instance exceptDecEq {e a : Type} [DecidableEq e] [DecidableEq a] :
    DecidableEq (Except e a) := fun x y =>
  match x, y with
  | Except.ok u, Except.ok v =>
      match decEq u v with
      | isTrue h => isTrue (by rw [h])
      | isFalse h => isFalse (fun hc => h (Except.ok.inj hc))
  | Except.ok _, Except.error _ => isFalse (fun hc => Except.noConfusion hc)
  | Except.error _, Except.ok _ => isFalse (fun hc => Except.noConfusion hc)
  | Except.error u, Except.error v =>
      match decEq u v with
      | isTrue h => isTrue (by rw [h])
      | isFalse h => isFalse (fun hc => h (Except.error.inj hc))

/-!
## Theorems

Basic store lemmas, helper lemmas, then one theorem per claim (with
witnesses and counterexamples where applicable).
-/

theorem getItem_setItem_self (st : Store) (k : String) (v : Val) :
    getItem (setItem st k v) k = some v := by
  induction st with
  | nil => simp [getItem, setItem, List.find?]
  | cons hd t ih =>
      obtain ⟨k', v'⟩ := hd
      by_cases h : k' = k
      · simp [getItem, setItem, h, List.find?]
      · have hb : (k' == k) = false := beq_eq_false_iff_ne.mpr h
        simp only [setItem, hb, if_neg]
        simpa [getItem, List.find?, hb] using ih

theorem getItem_setItem_ne (st : Store) (k k' : String) (v : Val)
    (h : k' ≠ k) : getItem (setItem st k v) k' = getItem st k' := by
  induction st with
  | nil =>
      simp [getItem, setItem, List.find?, beq_eq_false_iff_ne.mpr (Ne.symm h)]
  | cons hd t ih =>
      obtain ⟨k₀, v₀⟩ := hd
      by_cases h0 : k₀ = k
      · subst h0
        simp [getItem, setItem, List.find?, beq_eq_false_iff_ne.mpr h,
          beq_eq_false_iff_ne.mpr (Ne.symm h)]
      · have hb : (k₀ == k) = false := beq_eq_false_iff_ne.mpr h0
        simp only [setItem, hb, if_neg]
        by_cases h1 : k₀ = k'
        · subst h1
          simp [getItem, List.find?]
        · have hb1 : (k₀ == k') = false := beq_eq_false_iff_ne.mpr h1
          simpa [getItem, List.find?, hb1] using ih


theorem str_ne_of_head_ne {s t : String} (h : s.data.head? ≠ t.data.head?) :
    s ≠ t := fun e => h (by rw [e])

theorem head_append (p x : String) {c : Char} (hp : p.data.head? = some c) :
    (p ++ x).data.head? = some c := by
  rw [String.data_append, List.head?_append, hp]; rfl

theorem append_key_ne_const (p x t : String) (c : Char)
    (hp : p.data.head? = some c) (ht : t.data.head? ≠ some c) : p ++ x ≠ t :=
  str_ne_of_head_ne (by rw [head_append p x hp]; exact fun e => ht e.symm)

theorem append_key_ne_append (p x q y : String) (c d : Char)
    (hp : p.data.head? = some c) (hq : q.data.head? = some d) (hcd : c ≠ d) :
    p ++ x ≠ q ++ y :=
  str_ne_of_head_ne (by
    rw [head_append p x hp, head_append q y hq]
    simpa using hcd)

theorem append_ne_empty (p x : String) (c : Char)
    (hp : p.data.head? = some c) : p ++ x ≠ "" :=
  append_key_ne_const p x "" c hp (by simp)

theorem assocGet_assocSet_self {α : Type} (d : α) (l : List (String × α))
    (k : String) (v : α) : assocGet d (assocSet l k v) k = v := by
  induction l with
  | nil => simp [assocGet, assocSet, List.find?]
  | cons hd t ih =>
      obtain ⟨k', v'⟩ := hd
      by_cases h : k' = k
      · simp [assocGet, assocSet, h, List.find?]
      · have hb : (k' == k) = false := beq_eq_false_iff_ne.mpr h
        simp only [assocSet, hb, if_neg]
        simpa [assocGet, List.find?, hb] using ih

theorem assocGet_assocSet_ne {α : Type} (d : α) (l : List (String × α))
    (k k' : String) (v : α) (h : k' ≠ k) :
    assocGet d (assocSet l k v) k' = assocGet d l k' := by
  induction l with
  | nil =>
      simp [assocGet, assocSet, List.find?, beq_eq_false_iff_ne.mpr (Ne.symm h)]
  | cons hd t ih =>
      obtain ⟨k₀, v₀⟩ := hd
      by_cases h0 : k₀ = k
      · subst h0
        simp [assocGet, assocSet, List.find?, beq_eq_false_iff_ne.mpr h,
          beq_eq_false_iff_ne.mpr (Ne.symm h)]
      · have hb : (k₀ == k) = false := beq_eq_false_iff_ne.mpr h0
        simp only [assocSet, hb, if_neg]
        by_cases h1 : k₀ = k'
        · subst h1
          simp [assocGet, List.find?]
        · have hb1 : (k₀ == k') = false := beq_eq_false_iff_ne.mpr h1
          simpa [assocGet, List.find?, hb1] using ih

/-- Claim C8 (as stated) is false: `revokeCredential` additionally
requires the caller to be the credential's original issuer, so a second
registered institution's revoke attempt reverts.  Concretely, in
`exChain` institution `0xb` is registered and active, yet its revocation
of `cred1` (issued by `0xa`) reverts. -/
theorem c8_counterexample : ¬ claimC8 := by
  intro h
  have h2 := (h exChain "0xb" "" "" "" 0 0 "cred1").2
  exact absurd h2 (by decide)

/-- Claim C8 amended: `issueCredential` reverts exactly when the caller
is not a registered (active) institution; `revokeCredential` reverts
exactly when the caller is not a registered institution, or is not the
credential's original issuer, or the credential is already revoked. -/
theorem c8_access_control (s : ChainState)
    (sender student studentName courseName : String)
    (expiryDate blockTimestamp : Nat) (credentialId : String) :
    runOk (chainIssueCredential s sender student studentName courseName
        expiryDate blockTimestamp) = (institutionsOf s sender).isActive ∧
    runOk (chainRevokeCredential s sender credentialId)
      = ((institutionsOf s sender).isActive
          && (credentialsOf s credentialId).issuer == sender
          && !(credentialsOf s credentialId).isRevoked) := by
  constructor
  · unfold chainIssueCredential
    split_ifs with h1 <;> simp [runOk, h1]
  · unfold chainRevokeCredential
    split_ifs with h1 h2 h3 <;> simp_all [runOk]

/-- Claim C10: on-chain `verifyCredential` returns true exactly when the
credential exists (non-zero issuer), is not revoked, and has not passed
its expiry date; after a successful `revokeCredential` every later
`verifyCredential` of that id returns false while the id stays in the
student's credential list. -/
theorem c10_verify_revoke :
    (∀ (s : ChainState) (blockTimestamp : Nat) (credentialId : String),
        chainVerifyCredential s blockTimestamp credentialId = true ↔
          (credentialsOf s credentialId).issuer ≠ zeroAddress ∧
          (credentialsOf s credentialId).isRevoked = false ∧
          blockTimestamp ≤ (credentialsOf s credentialId).expiryDate) ∧
    (∀ (s : ChainState) (sender credentialId : String) (s' : ChainState),
        chainRevokeCredential s sender credentialId = Except.ok s' →
          (∀ blockTimestamp,
              chainVerifyCredential s' blockTimestamp credentialId = false) ∧
          (∀ a, chainGetStudentCredentials s' a
                  = chainGetStudentCredentials s a)) := by
  constructor
  · intro s ts id
    simp only [chainVerifyCredential]
    split_ifs with h1 h2 h3
    · simp only [beq_iff_eq] at h1
      simp [h1]
    · simp [h2]
    · simp only [not_lt] at h3
      constructor
      · intro hc; exact absurd hc (by simp)
      · intro ⟨_, _, hle⟩; omega
    · simp only [beq_iff_eq] at h1
      simp only [not_lt] at h3
      simp [h1, h2, h3]
  · intro s sender id s' hok
    unfold chainRevokeCredential at hok
    split_ifs at hok with h1 h2 h3 <;> cases hok
    refine ⟨?_, ?_⟩
    · intro ts
      simp only [chainVerifyCredential]
      simp [credentialsOf, assocGet_assocSet_self]
    · intro a
      simp [chainGetStudentCredentials, studentCredentialsOf]

/-- Witness for `c10_verify_revoke`: instantiated on the concrete chain
state `exChain`, whose revocation of `cred1` by its issuer succeeds. -/
theorem c10_witness :
    (chainVerifyCredential exChain 5 "cred1" = true ↔
      (credentialsOf exChain "cred1").issuer ≠ zeroAddress ∧
      (credentialsOf exChain "cred1").isRevoked = false ∧
      5 ≤ (credentialsOf exChain "cred1").expiryDate) ∧
    (∀ blockTimestamp,
        chainVerifyCredential exChainRevoked blockTimestamp "cred1" = false) ∧
    (∀ a, chainGetStudentCredentials exChainRevoked a
            = chainGetStudentCredentials exChain a) :=
  ⟨c10_verify_revoke.1 exChain 5 "cred1",
   c10_verify_revoke.2 exChain "0xa" "cred1" exChainRevoked (by decide)⟩

/-- Claim C9 (as stated) is false: `addVerificationRecord` writes only
the connected account's (student-side) history key; the verifier-side
history is never written.  Concretely, sharing `exCred` from account
`0xS` with verifier `0xV` over an empty store leaves
`verification_history_0xv` absent. -/
theorem c9_counterexample : ¬ claimC9 := by
  intro h
  obtain ⟨r, -, -, -, -, -, -, hV⟩ :=
    h [] "0xS" exCred "Acme" "0xV" 7 "n1" (by decide) (by decide)
  have hL : histOf (shareCredential [] (some "0xS")
      (histOf [] ("verification_history_" ++ jsToLower "0xS")) exCred
      "Acme" "0xV" 7 "n1").snd
      ("verification_history_" ++ jsToLower "0xV") = [] := by decide
  rw [hL] at hV
  have hR : histOf ([] : Store) ("verification_history_" ++ jsToLower "0xV")
      = [] := by decide
  rw [hR] at hV
  simp at hV

/-- Claim C9 amended: each sharing event appends the verification record
(credential id and title, verifier name and address, timestamp, status
"valid") to the connected student account's per-address history only;
every other key — in particular the verifier-side history — is left
unchanged. -/
theorem c9_single_history (st : Store) (studentAddr : String)
    (hs : List VRec) (cred : Cred) (verifierName verifierAddress : String)
    (now : Nat) (nonce : String)
    (h1 : verifierName ≠ "") (h2 : verifierAddress ≠ "") :
    getItem (shareCredential st (some studentAddr) hs cred verifierName
        verifierAddress now nonce).snd
      ("verification_history_" ++ jsToLower studentAddr)
      = some (Val.hist (hs ++
          [{ id := "verify_" ++ toString now ++ "_" ++ nonce,
             credentialId := cred.id, credentialTitle := cred.title,
             verifierName := verifierName,
             verifierAddress := verifierAddress,
             timestamp := now, status := "valid" }])) ∧
    ∀ k, k ≠ "verification_history_" ++ jsToLower studentAddr →
      getItem (shareCredential st (some studentAddr) hs cred verifierName
          verifierAddress now nonce).snd k = getItem st k := by
  have hb1 : (verifierName == "") = false := beq_eq_false_iff_ne.mpr h1
  have hb2 : (verifierAddress == "") = false := beq_eq_false_iff_ne.mpr h2
  constructor
  · simp [shareCredential, addVerificationRecord, hb1, hb2,
      getItem_setItem_self]
  · intro k hk
    simp [shareCredential, addVerificationRecord, hb1, hb2,
      getItem_setItem_ne _ _ _ _ hk]

/-- Witness for `c9_single_history` at concrete inputs. -/
theorem c9_single_history_witness :
    getItem (shareCredential [] (some "0xS") [] exCred "Acme" "0xV"
        7 "n1").snd ("verification_history_" ++ jsToLower "0xS")
      = some (Val.hist ([] ++
          [{ id := "verify_" ++ toString 7 ++ "_" ++ "n1",
             credentialId := exCred.id, credentialTitle := exCred.title,
             verifierName := "Acme", verifierAddress := "0xV",
             timestamp := 7, status := "valid" }])) ∧
    ∀ k, k ≠ "verification_history_" ++ jsToLower "0xS" →
      getItem (shareCredential [] (some "0xS") [] exCred "Acme" "0xV"
          7 "n1").snd k = getItem [] k :=
  c9_single_history [] "0xS" [] exCred "Acme" "0xV" 7 "n1"
    (by decide) (by decide)

theorem jsTruthy_users (l : List UserRec) : jsTruthy (Val.users l) = true := by
  have h : render (Val.users l) ≠ "" :=
    append_ne_empty ("[" ++ joinComma (l.map renderUser)) "]" '['
      (head_append "[" _ (by decide))
  simpa [jsTruthy, bne_iff_ne] using h

theorem jsTruthy_creds (l : List Cred) : jsTruthy (Val.creds l) = true := by
  have h : render (Val.creds l) ≠ "" :=
    append_ne_empty ("[" ++ joinComma (l.map renderCred)) "]" '['
      (head_append "[" _ (by decide))
  simpa [jsTruthy, bne_iff_ne] using h

theorem jsTruthy_hist (l : List VRec) : jsTruthy (Val.hist l) = true := by
  have h : render (Val.hist l) ≠ "" :=
    append_ne_empty ("[" ++ joinComma (l.map renderVRec)) "]" '['
      (head_append "[" _ (by decide))
  simpa [jsTruthy, bne_iff_ne] using h

theorem credKey_ne_pendingUsers (x : String) :
    "credentials_" ++ x ≠ "pendingUsers" :=
  append_key_ne_const _ _ _ 'c' (by decide) (by decide)

theorem credKey_ne_txMappings (x : String) :
    "credentials_" ++ x ≠ "txToIpfsMappings" :=
  append_key_ne_const _ _ _ 'c' (by decide) (by decide)

theorem credKey_ne_ipfsKey (x y : String) :
    "credentials_" ++ x ≠ "ipfsMappings_" ++ y :=
  append_key_ne_append _ _ _ _ 'c' 'i' (by decide) (by decide) (by decide)

theorem studKey_ne_pendingUsers (x : String) :
    "student_credentials_" ++ x ≠ "pendingUsers" :=
  append_key_ne_const _ _ _ 's' (by decide) (by decide)

theorem studKey_ne_txMappings (x : String) :
    "student_credentials_" ++ x ≠ "txToIpfsMappings" :=
  append_key_ne_const _ _ _ 's' (by decide) (by decide)

theorem studKey_ne_ipfsKey (x y : String) :
    "student_credentials_" ++ x ≠ "ipfsMappings_" ++ y :=
  append_key_ne_append _ _ _ _ 's' 'i' (by decide) (by decide) (by decide)

theorem studKey_ne_credKey (x y : String) :
    "student_credentials_" ++ x ≠ "credentials_" ++ y :=
  append_key_ne_append _ _ _ _ 's' 'c' (by decide) (by decide) (by decide)

theorem storeDataInLocalStorage_frame (st : Store) (d : UserRec) (k : String)
    (h : k ≠ "pendingUsers") :
    getItem (storeDataInLocalStorage st d) k = getItem st k := by
  unfold storeDataInLocalStorage
  cases hg : getItem st "pendingUsers" with
  | none =>
      simp only [hg]
      exact getItem_setItem_ne _ _ _ _ h
  | some v =>
      simp only [hg]
      split_ifs with ht
      · cases v <;>
          first
            | exact getItem_setItem_ne _ _ _ _ h
            | rfl
      · exact getItem_setItem_ne _ _ _ _ h

theorem storeTxHashMapping_frame (st : Store) (a t i k : String)
    (h1 : k ≠ "txToIpfsMappings") (h2 : k ≠ "ipfsMappings_" ++ jsToLower a) :
    getItem (storeTxHashMapping st a t i) k = getItem st k := by
  simp only [storeTxHashMapping]
  rw [getItem_setItem_ne _ _ _ _ h2, getItem_setItem_ne _ _ _ _ h1]

theorem storeTransactionData_frame (st : Store) (d : UserRec)
    (configured : Bool) (response : Option String) (k : String)
    (h1 : k ≠ "pendingUsers") (h2 : k ≠ "txToIpfsMappings")
    (h3 : k ≠ "ipfsMappings_" ++ jsToLower d.address) :
    getItem (storeTransactionData st d configured response).fst k
      = getItem st k := by
  unfold storeTransactionData
  cases configured with
  | false =>
      simp only [Bool.false_eq_true, if_false]
      exact storeDataInLocalStorage_frame st d k h1
  | true =>
      cases response with
      | none =>
          simp only [if_true]
          exact storeDataInLocalStorage_frame st d k h1
      | some h =>
          simp only [if_true]
          exact storeTxHashMapping_frame st d.address _ h k h2 h3

theorem saveCred_spec (st : Store) (c : Cred) (instAddr : String)
    (il sl : List Cred)
    (hil : credListOf (getItem st ("credentials_" ++ jsToLower instAddr))
            = Except.ok il)
    (hsl : credListOf (getItem st
            ("student_credentials_" ++ jsToLower c.studentWallet))
            = Except.ok sl) :
    getItem (saveCredentialToLocalStorage st c instAddr)
        ("credentials_" ++ jsToLower instAddr)
      = some (Val.creds (il ++ [c])) ∧
    getItem (saveCredentialToLocalStorage st c instAddr)
        ("student_credentials_" ++ jsToLower c.studentWallet)
      = some (Val.creds (sl ++ [c])) ∧
    ∀ k, k ≠ "credentials_" ++ jsToLower instAddr →
      k ≠ "student_credentials_" ++ jsToLower c.studentWallet →
      getItem (saveCredentialToLocalStorage st c instAddr) k = getItem st k := by
  have hne : "student_credentials_" ++ jsToLower c.studentWallet
      ≠ "credentials_" ++ jsToLower instAddr :=
    studKey_ne_credKey _ _
  have hstep : getItem (setItem st ("credentials_" ++ jsToLower instAddr)
      (Val.creds (il ++ [c])))
      ("student_credentials_" ++ jsToLower c.studentWallet)
      = getItem st ("student_credentials_" ++ jsToLower c.studentWallet) :=
    getItem_setItem_ne _ _ _ _ hne
  simp only [saveCredentialToLocalStorage, hil, hstep, hsl]
  refine ⟨?_, ?_, ?_⟩
  · rw [getItem_setItem_ne _ _ _ _ (Ne.symm hne)]
    exact getItem_setItem_self _ _ _
  · exact getItem_setItem_self _ _ _
  · intro k hk1 hk2
    rw [getItem_setItem_ne _ _ _ _ hk2, getItem_setItem_ne _ _ _ _ hk1]

/-- Claim C2 (as stated) is false: `issueCredential` saves the credential
to the local arrays on the success path too, not only as a fallback.
Concretely, on an empty store with a successful pinning response the
student credential list gains the credential. -/
theorem c2_counterexample : ¬ claimC2 := by
  intro h
  have h2 := (h [] exCred "0xI" 3 "Qm1").2.1
  exact absurd h2 (by decide)

/-- Claim C2 amended: `issueCredential` saves the credential into the
institution's and the student's local arrays on every outcome of the
pinning attempt (success and failure alike); it reports success exactly
when the pinning attempt succeeds, returning the pinning hash. -/
theorem c2_local_persistence (st : Store) (c : Cred) (addr : String)
    (now : Nat) (configured : Bool) (response : Option String)
    (il sl : List Cred)
    (hil : credListOf (getItem st ("credentials_" ++ jsToLower addr))
            = Except.ok il)
    (hsl : credListOf (getItem st
            ("student_credentials_" ++ jsToLower c.studentWallet))
            = Except.ok sl) :
    getItem (issueCredential st c addr now configured response).fst
        ("credentials_" ++ jsToLower addr) = some (Val.creds (il ++ [c])) ∧
    getItem (issueCredential st c addr now configured response).fst
        ("student_credentials_" ++ jsToLower c.studentWallet)
      = some (Val.creds (sl ++ [c])) ∧
    ((issueCredential st c addr now configured response).snd.success = true
      ↔ configured = true ∧ response.isSome) ∧
    (∀ h, configured = true → response = some h →
      (issueCredential st c addr now configured response).snd
        = { success := true, hash := some h, error := none }) := by
  have frameInst : ∀ (d : UserRec) cfg resp,
      getItem (storeTransactionData st d cfg resp).fst
          ("credentials_" ++ jsToLower addr)
        = getItem st ("credentials_" ++ jsToLower addr) := by
    intro d cfg resp
    exact storeTransactionData_frame st d cfg resp _
      (credKey_ne_pendingUsers _) (credKey_ne_txMappings _)
      (credKey_ne_ipfsKey _ _)
  have frameStud : ∀ (d : UserRec) cfg resp,
      getItem (storeTransactionData st d cfg resp).fst
          ("student_credentials_" ++ jsToLower c.studentWallet)
        = getItem st ("student_credentials_" ++ jsToLower c.studentWallet) := by
    intro d cfg resp
    exact storeTransactionData_frame st d cfg resp _
      (studKey_ne_pendingUsers _) (studKey_ne_txMappings _)
      (studKey_ne_ipfsKey _ _)
  cases configured with
  | false =>
      have hsave := saveCred_spec (storeTransactionData st
          { address := addr, role := "institution", timestamp := now,
            transactionHash := some ("credential_" ++ c.id),
            paymentConfirmed := true, status := some "approved",
            additionalData := some c } false response).fst c addr il sl
        (by rw [frameInst]; exact hil) (by rw [frameStud]; exact hsl)
      refine ⟨?_, ?_, ?_, ?_⟩
      · simpa [issueCredential, storeTransactionData] using hsave.1
      · simpa [issueCredential, storeTransactionData] using hsave.2.1
      · simp [issueCredential, storeTransactionData]
      · intro h hc
        cases hc
  | true =>
      cases response with
      | none =>
          have hsave := saveCred_spec (storeTransactionData st
              { address := addr, role := "institution", timestamp := now,
                transactionHash := some ("credential_" ++ c.id),
                paymentConfirmed := true, status := some "approved",
                additionalData := some c } true none).fst c addr il sl
            (by rw [frameInst]; exact hil) (by rw [frameStud]; exact hsl)
          refine ⟨?_, ?_, ?_, ?_⟩
          · simpa [issueCredential, storeTransactionData] using hsave.1
          · simpa [issueCredential, storeTransactionData] using hsave.2.1
          · simp [issueCredential, storeTransactionData]
          · intro h _ hc
            cases hc
      | some hsh =>
          have hsave := saveCred_spec (storeTransactionData st
              { address := addr, role := "institution", timestamp := now,
                transactionHash := some ("credential_" ++ c.id),
                paymentConfirmed := true, status := some "approved",
                additionalData := some c } true (some hsh)).fst c addr il sl
            (by rw [frameInst]; exact hil) (by rw [frameStud]; exact hsl)
          refine ⟨?_, ?_, ?_, ?_⟩
          · simpa [issueCredential, storeTransactionData] using hsave.1
          · simpa [issueCredential, storeTransactionData] using hsave.2.1
          · simp [issueCredential, storeTransactionData]
          · intro h _ hc
            cases hc
            simp [issueCredential, storeTransactionData]

/-- Witness for `c2_local_persistence` at concrete inputs. -/
theorem c2_local_persistence_witness :
    getItem (issueCredential [] exCred "0xI" 3 true (some "Qm1")).fst
        ("credentials_" ++ jsToLower "0xI")
      = some (Val.creds ([] ++ [exCred])) ∧
    getItem (issueCredential [] exCred "0xI" 3 true (some "Qm1")).fst
        ("student_credentials_" ++ jsToLower exCred.studentWallet)
      = some (Val.creds ([] ++ [exCred])) ∧
    ((issueCredential [] exCred "0xI" 3 true (some "Qm1")).snd.success = true
      ↔ true = true ∧ (some "Qm1").isSome) ∧
    (∀ h, true = true → some "Qm1" = some h →
      (issueCredential [] exCred "0xI" 3 true (some "Qm1")).snd
        = { success := true, hash := some h, error := none }) :=
  c2_local_persistence [] exCred "0xI" 3 true (some "Qm1") [] []
    (by decide) (by decide)

/-- Claim C5: one call to the credential-saving operation appends exactly
one entry to the institution's list `credentials_<issuer>` and exactly
one entry to the student's list `student_credentials_<studentWallet>`,
and changes no other key (in particular no other credential list). -/
theorem c5_exactly_one_entry (st : Store) (c : Cred) (instAddr : String)
    (il sl : List Cred)
    (hil : credListOf (getItem st ("credentials_" ++ jsToLower instAddr))
            = Except.ok il)
    (hsl : credListOf (getItem st
            ("student_credentials_" ++ jsToLower c.studentWallet))
            = Except.ok sl) :
    getItem (saveCredentialToLocalStorage st c instAddr)
        ("credentials_" ++ jsToLower instAddr)
      = some (Val.creds (il ++ [c])) ∧
    getItem (saveCredentialToLocalStorage st c instAddr)
        ("student_credentials_" ++ jsToLower c.studentWallet)
      = some (Val.creds (sl ++ [c])) ∧
    ∀ k, k ≠ "credentials_" ++ jsToLower instAddr →
      k ≠ "student_credentials_" ++ jsToLower c.studentWallet →
      getItem (saveCredentialToLocalStorage st c instAddr) k
        = getItem st k :=
  saveCred_spec st c instAddr il sl hil hsl

/-- Witness for `c5_exactly_one_entry` at concrete inputs. -/
theorem c5_exactly_one_entry_witness :
    getItem (saveCredentialToLocalStorage exStorePending exCred "0xI")
        ("credentials_" ++ jsToLower "0xI")
      = some (Val.creds ([] ++ [exCred])) ∧
    getItem (saveCredentialToLocalStorage exStorePending exCred "0xI")
        ("student_credentials_" ++ jsToLower exCred.studentWallet)
      = some (Val.creds ([] ++ [exCred])) ∧
    ∀ k, k ≠ "credentials_" ++ jsToLower "0xI" →
      k ≠ "student_credentials_" ++ jsToLower exCred.studentWallet →
      getItem (saveCredentialToLocalStorage exStorePending exCred "0xI") k
        = getItem exStorePending k :=
  c5_exactly_one_entry exStorePending exCred "0xI" [] []
    (by decide) (by decide)

/-- Membership of the upserted record. -/
theorem mem_upsertUser (l : List UserRec) (d : UserRec) :
    d ∈ upsertUser l d := by
  induction l with
  | nil => simp [upsertUser]
  | cons u t ih =>
      by_cases h : jsToLower u.address == jsToLower d.address
      · simp [upsertUser, h]
      · simp only [upsertUser, h, if_neg, Bool.not_eq_true]
        simp [List.mem_cons, ih]

/-- Claim C7: whenever the pinning write fails (network failure or
missing configuration), `storeTransactionData` upserts the payload into
the local `pendingUsers` array — updating the entry with the same
lower-cased address or appending a new one — and then propagates the
error. -/
theorem c7_fallback_persistence (st : Store) (d : UserRec)
    (configured : Bool) (response : Option String)
    (hfail : configured = false ∨ response = none)
    (hWF : isUsersVal (getItem st "pendingUsers") = true) :
    (∃ e, (storeTransactionData st d configured response).snd
            = Except.error e) ∧
    getItem (storeTransactionData st d configured response).fst "pendingUsers"
      = some (Val.users (upsertUser (usersOf st "pendingUsers") d)) ∧
    d ∈ upsertUser (usersOf st "pendingUsers") d := by
  have hstore : getItem (storeDataInLocalStorage st d) "pendingUsers"
      = some (Val.users (upsertUser (usersOf st "pendingUsers") d)) := by
    cases hg : getItem st "pendingUsers" with
    | none =>
        simp [storeDataInLocalStorage, hg, getItem_setItem_self, usersOf,
          parseUsersOr, upsertUser]
    | some v =>
        cases v with
        | users l =>
            simp [storeDataInLocalStorage, hg, jsTruthy_users,
              getItem_setItem_self, usersOf, parseUsersOr]
        | s w => simp [isUsersVal, hg] at hWF
        | creds l => simp [isUsersVal, hg] at hWF
        | hist l => simp [isUsersVal, hg] at hWF
        | strs l => simp [isUsersVal, hg] at hWF
        | smap l => simp [isUsersVal, hg] at hWF
        | profile p => simp [isUsersVal, hg] at hWF
  rcases hfail with hc | hr
  · subst hc
    exact ⟨⟨"Pinata API keys not configured", rfl⟩, hstore,
      mem_upsertUser _ _⟩
  · subst hr
    cases configured with
    | false =>
        exact ⟨⟨"Pinata API keys not configured", rfl⟩, hstore,
          mem_upsertUser _ _⟩
    | true =>
        exact ⟨⟨"Error pinning to IPFS", rfl⟩, hstore, mem_upsertUser _ _⟩

/-- Witness for `c7_fallback_persistence` at concrete inputs. -/
theorem c7_fallback_persistence_witness :
    (∃ e, (storeTransactionData exStorePending exUser true none).snd
            = Except.error e) ∧
    getItem (storeTransactionData exStorePending exUser true none).fst
        "pendingUsers"
      = some (Val.users (upsertUser (usersOf exStorePending "pendingUsers")
          exUser)) ∧
    exUser ∈ upsertUser (usersOf exStorePending "pendingUsers") exUser :=
  c7_fallback_persistence exStorePending exUser true none
    (Or.inr rfl) (by decide)

theorem localHitP_cons (k : String) (v : Val) (t : Store) (fam id : String) :
    localHitP ((k, v) :: t) fam id ↔
      (jsStartsWith k fam = true ∧ ∃ l, v = Val.creds l ∧ ∃ c ∈ l, c.id = id) ∨
      localHitP t fam id := by
  constructor
  · rintro ⟨⟨kk, vv⟩, hmem, hks, l, hv, c, hc, hcid⟩
    rcases List.mem_cons.mp hmem with he | hm
    · obtain ⟨he1, he2⟩ := Prod.mk.injEq .. ▸ he
      left
      refine ⟨?_, l, ?_, c, hc, hcid⟩
      · rw [← he1]; exact hks
      · rw [← he2]; exact hv
    · right
      exact ⟨(kk, vv), hm, hks, l, hv, c, hc, hcid⟩
  · rintro (⟨hks, l, hv, c, hc, hcid⟩ | ⟨kv, hmem, hks, l, hv, c, hc, hcid⟩)
    · exact ⟨(k, v), List.mem_cons_self _ _, hks, l, hv, c, hc, hcid⟩
    · exact ⟨kv, List.mem_cons_of_mem _ hmem, hks, l, hv, c, hc, hcid⟩

theorem scanFamily_spec (fam id : String) (st : Store)
    (hWF : ∀ kv ∈ st, jsStartsWith kv.fst fam = true →
        isCredsShaped kv.snd = true) :
    ∃ r, scanFamily fam id st = Except.ok r ∧
      ((∃ c, r = some c) ↔ localHitP st fam id) ∧
      (∀ c, r = some c → c.id = id) := by
  induction st with
  | nil =>
      refine ⟨none, rfl, ?_, ?_⟩
      · simp [localHitP]
      · intro c hc; cases hc
  | cons kv t ih =>
      obtain ⟨k, v⟩ := kv
      have hWFt : ∀ kv ∈ t, jsStartsWith kv.fst fam = true →
          isCredsShaped kv.snd = true :=
        fun kv hm => hWF kv (List.mem_cons_of_mem _ hm)
      obtain ⟨r, hr, hiff, hid⟩ := ih hWFt
      by_cases hks : jsStartsWith k fam = true
      · have hshaped := hWF (k, v) (List.mem_cons_self _ _) hks
        cases v with
        | creds l =>
            cases hf : l.find? (fun c => c.id == id) with
            | some c =>
                refine ⟨some c, ?_, ?_, ?_⟩
                · simp [scanFamily, hks, credListOf, jsTruthy_creds, hf]
                · have hcm := List.mem_of_find?_eq_some hf
                  have hcid : c.id = id := by
                    have := List.find?_some hf
                    simpa using this
                  constructor
                  · intro _
                    exact (localHitP_cons k _ t fam id).mpr
                      (Or.inl ⟨hks, l, rfl, c, hcm, hcid⟩)
                  · intro _; exact ⟨c, rfl⟩
                · intro c' hc'
                  cases hc'
                  have := List.find?_some hf
                  simpa using this
            | none =>
                refine ⟨r, ?_, ?_, ?_⟩
                · simp [scanFamily, hks, credListOf, jsTruthy_creds, hf, hr]
                · rw [hiff, localHitP_cons]
                  constructor
                  · exact Or.inr
                  · rintro (⟨-, l', hl', c, hc, hcid⟩ | hh)
                    · cases hl'
                      have := List.find?_eq_none.mp hf c hc
                      simp [hcid] at this
                    · exact hh
                · exact hid
        | s w => exact absurd hshaped (by simp [isCredsShaped])
        | users l => exact absurd hshaped (by simp [isCredsShaped])
        | hist l => exact absurd hshaped (by simp [isCredsShaped])
        | strs l => exact absurd hshaped (by simp [isCredsShaped])
        | smap l => exact absurd hshaped (by simp [isCredsShaped])
        | profile p => exact absurd hshaped (by simp [isCredsShaped])
      · have hksf : jsStartsWith k fam = false := by simpa using hks
        refine ⟨r, ?_, ?_, ?_⟩
        · simp [scanFamily, hksf, hr]
        · rw [hiff, localHitP_cons]
          constructor
          · exact Or.inr
          · rintro (⟨hks', -⟩ | hh)
            · rw [hksf] at hks'; cases hks'
            · exact hh
        · exact hid

theorem credsFamilyWF_split (st : Store) (h : credsFamilyWF st = true) :
    (∀ kv ∈ st, jsStartsWith kv.fst "student_credentials_" = true →
        isCredsShaped kv.snd = true) ∧
    (∀ kv ∈ st, jsStartsWith kv.fst "credentials_" = true →
        isCredsShaped kv.snd = true) := by
  have hall := List.all_eq_true.mp h
  constructor
  · intro kv hm hks
    have := hall kv hm
    simp only [hks, Bool.true_or, if_true] at this
    exact this
  · intro kv hm hks
    have := hall kv hm
    simp only [hks, Bool.or_true, if_true] at this
    exact this

theorem verifyLocal_spec (st : Store) (credentialId : String)
    (hWF : credsFamilyWF st = true) :
    ((verifyLocal st credentialId).isValid = true ↔
      localHitP st "student_credentials_" credentialId ∨
      localHitP st "credentials_" credentialId) ∧
    (∀ c, (verifyLocal st credentialId).credential = some c →
        c.id = credentialId) ∧
    ((verifyLocal st credentialId).isValid = true →
      ∃ c, (verifyLocal st credentialId).credential = some c) ∧
    ((verifyLocal st credentialId).isValid = false →
      (verifyLocal st credentialId).message = notFoundMsg) := by
  obtain ⟨hWFs, hWFc⟩ := credsFamilyWF_split st hWF
  obtain ⟨r1, hr1, hiff1, hid1⟩ :=
    scanFamily_spec "student_credentials_" credentialId st hWFs
  obtain ⟨r2, hr2, hiff2, hid2⟩ :=
    scanFamily_spec "credentials_" credentialId st hWFc
  cases r1 with
  | some c =>
      have hres : verifyLocal st credentialId =
          { isValid := true, credential := some c,
            message := "Credential successfully verified." } := by
        simp [verifyLocal, hr1]
      rw [hres]
      refine ⟨?_, ?_, ?_, ?_⟩
      · simp only [true_iff]
        exact Or.inl (hiff1.mp ⟨c, rfl⟩)
      · intro c' hc'
        cases hc'
        exact hid1 _ rfl
      · intro _; exact ⟨c, rfl⟩
      · intro hc; cases hc
  | none =>
      cases r2 with
      | some c =>
          have hres : verifyLocal st credentialId =
              { isValid := true, credential := some c,
                message := "Credential successfully verified." } := by
            simp [verifyLocal, hr1, hr2]
          rw [hres]
          refine ⟨?_, ?_, ?_, ?_⟩
          · simp only [true_iff]
            exact Or.inr (hiff2.mp ⟨c, rfl⟩)
          · intro c' hc'
            cases hc'
            exact hid2 _ rfl
          · intro _; exact ⟨c, rfl⟩
          · intro hc; cases hc
      | none =>
          have hres : verifyLocal st credentialId =
              { isValid := false, credential := none,
                message := notFoundMsg } := by
            simp [verifyLocal, hr1, hr2]
          rw [hres]
          refine ⟨?_, ?_, ?_, ?_⟩
          · constructor
            · intro hc; exact absurd hc (by simp)
            · rintro (hl | hl)
              · obtain ⟨c, hc⟩ := hiff1.mpr hl
                cases hc
              · obtain ⟨c, hc⟩ := hiff2.mpr hl
                cases hc
          · intro c hc; cases hc
          · intro hc; cases hc
          · intro _; rfl

/-- Claim C3: `verifyCredential` prefers the remote record (when an IPFS
hash is supplied and the retrieved payload wraps a credential with the
probed id), then scans every `student_credentials_` key, then every
`credentials_` key; it reports valid exactly when one of these holds a
credential with the given id, returning that credential, and otherwise
reports invalid with the not-found message. -/
theorem c3_verify_scan (st : Store) (credentialId : String)
    (ipfsHash : Option String) (remote : Option UserRec)
    (hWF : credsFamilyWF st = true) :
    ((verifyCredential st credentialId ipfsHash remote).isValid = true ↔
      (remoteHitP credentialId ipfsHash remote ∨
       localHitP st "student_credentials_" credentialId ∨
       localHitP st "credentials_" credentialId)) ∧
    (∀ c, (verifyCredential st credentialId ipfsHash remote).credential
        = some c → c.id = credentialId) ∧
    ((verifyCredential st credentialId ipfsHash remote).isValid = true →
      ∃ c, (verifyCredential st credentialId ipfsHash remote).credential
        = some c) ∧
    ((verifyCredential st credentialId ipfsHash remote).isValid = false →
      (verifyCredential st credentialId ipfsHash remote).message
        = notFoundMsg) := by
  obtain ⟨hL1, hL2, hL3, hL4⟩ := verifyLocal_spec st credentialId hWF
  have hlocal : ∀ hRm : ¬ remoteHitP credentialId ipfsHash remote,
      verifyCredential st credentialId ipfsHash remote
        = verifyLocal st credentialId →
      ((verifyCredential st credentialId ipfsHash remote).isValid = true ↔
        (remoteHitP credentialId ipfsHash remote ∨
         localHitP st "student_credentials_" credentialId ∨
         localHitP st "credentials_" credentialId)) ∧
      (∀ c, (verifyCredential st credentialId ipfsHash remote).credential
          = some c → c.id = credentialId) ∧
      ((verifyCredential st credentialId ipfsHash remote).isValid = true →
        ∃ c, (verifyCredential st credentialId ipfsHash remote).credential
          = some c) ∧
      ((verifyCredential st credentialId ipfsHash remote).isValid = false →
        (verifyCredential st credentialId ipfsHash remote).message
          = notFoundMsg) := by
    intro hRm he
    rw [he]
    refine ⟨?_, hL2, hL3, hL4⟩
    rw [hL1]
    constructor
    · exact Or.inr
    · rintro (hc | hc)
      · exact absurd hc hRm
      · exact hc
  cases ipfsHash with
  | none =>
      refine hlocal ?_ (by simp [verifyCredential])
      rintro ⟨hs, -⟩
      cases hs
  | some ih =>
      cases remote with
      | none =>
          refine hlocal ?_ (by simp [verifyCredential])
          rintro ⟨-, d, hd, -⟩
          cases hd
      | some d =>
          cases had : d.additionalData with
          | none =>
              refine hlocal ?_ (by simp [verifyCredential, had])
              rintro ⟨-, d', hd', c, hc, -⟩
              cases hd'
              rw [had] at hc
              cases hc
          | some c =>
              by_cases hcid : c.id = credentialId
              · have hres : verifyCredential st credentialId (some ih) (some d)
                    = VerifyRes.mk true (some c)
                        "Credential successfully verified on IPFS." := by
                  simp [verifyCredential, had, hcid]
                rw [hres]
                refine ⟨?_, ?_, ?_, ?_⟩
                · simp only [true_iff]
                  exact Or.inl ⟨rfl, d, rfl, c, had, hcid⟩
                · intro c' hc'
                  cases hc'
                  exact hcid
                · intro _; exact ⟨c, rfl⟩
                · intro hc; cases hc
              · have hb : (c.id == credentialId) = false :=
                  beq_eq_false_iff_ne.mpr hcid
                refine hlocal ?_ (by simp [verifyCredential, had, hb])
                rintro ⟨-, d', hd', c', hc', hcid'⟩
                cases hd'
                rw [had] at hc'
                cases hc'
                exact hcid hcid'

/-- Witness for `c3_verify_scan` at concrete inputs. -/
theorem c3_verify_scan_witness :
    ((verifyCredential [("student_credentials_0xs", Val.creds [exCred])]
        exCred.id none none).isValid = true ↔
      (remoteHitP exCred.id none none ∨
       localHitP [("student_credentials_0xs", Val.creds [exCred])]
         "student_credentials_" exCred.id ∨
       localHitP [("student_credentials_0xs", Val.creds [exCred])]
         "credentials_" exCred.id)) ∧
    (∀ c, (verifyCredential [("student_credentials_0xs", Val.creds [exCred])]
        exCred.id none none).credential = some c → c.id = exCred.id) ∧
    ((verifyCredential [("student_credentials_0xs", Val.creds [exCred])]
        exCred.id none none).isValid = true →
      ∃ c, (verifyCredential [("student_credentials_0xs",
          Val.creds [exCred])] exCred.id none none).credential = some c) ∧
    ((verifyCredential [("student_credentials_0xs", Val.creds [exCred])]
        exCred.id none none).isValid = false →
      (verifyCredential [("student_credentials_0xs", Val.creds [exCred])]
          exCred.id none none).message = notFoundMsg) :=
  c3_verify_scan [("student_credentials_0xs", Val.creds [exCred])]
    exCred.id none none (by decide)

theorem roleKey_ne_pendingUsers (a : String) : roleKey a ≠ "pendingUsers" :=
  append_key_ne_const _ _ _ 'r' (by decide) (by decide)

theorem roleKey_ne_approvedUsers (a : String) : roleKey a ≠ "approvedUsers" :=
  append_key_ne_const _ _ _ 'r' (by decide) (by decide)

theorem roleKey_ne_txMappings (a : String) : roleKey a ≠ "txToIpfsMappings" :=
  append_key_ne_const _ _ _ 'r' (by decide) (by decide)

theorem roleKey_ne_ipfsKey (a y : String) :
    roleKey a ≠ "ipfsMappings_" ++ y :=
  append_key_ne_append _ _ _ _ 'r' 'i' (by decide) (by decide) (by decide)

theorem pendingUsers_ne_ipfsKey (y : String) :
    ("pendingUsers" : String) ≠ "ipfsMappings_" ++ y :=
  Ne.symm (append_key_ne_const _ _ _ 'i' (by decide) (by decide))

theorem approvedUsers_ne_ipfsKey (y : String) :
    ("approvedUsers" : String) ≠ "ipfsMappings_" ++ y :=
  Ne.symm (append_key_ne_const _ _ _ 'i' (by decide) (by decide))

theorem usersOf_users (st : Store) (k : String) (l : List UserRec)
    (h : getItem st k = some (Val.users l)) : usersOf st k = l := by
  simp [usersOf, parseUsersOr, h, jsTruthy_users]

theorem storeDataInLocalStorage_pending (st : Store) (d : UserRec)
    (hWF : isUsersVal (getItem st "pendingUsers") = true) :
    getItem (storeDataInLocalStorage st d) "pendingUsers"
      = some (Val.users (upsertUser (usersOf st "pendingUsers") d)) := by
  cases hg : getItem st "pendingUsers" with
  | none =>
      simp [storeDataInLocalStorage, hg, getItem_setItem_self, usersOf,
        parseUsersOr, upsertUser]
  | some v =>
      cases v with
      | users l =>
          simp [storeDataInLocalStorage, hg, jsTruthy_users,
            getItem_setItem_self, usersOf, parseUsersOr]
      | s w => simp [isUsersVal, hg] at hWF
      | creds l => simp [isUsersVal, hg] at hWF
      | hist l => simp [isUsersVal, hg] at hWF
      | strs l => simp [isUsersVal, hg] at hWF
      | smap l => simp [isUsersVal, hg] at hWF
      | profile p => simp [isUsersVal, hg] at hWF

/-- Claim C4 (as stated) is false: when the remote mirroring write fails,
`storeTransactionData`'s localStorage fallback re-inserts the approval
record — carrying the approved user's address — into `pendingUsers`, so
the pending-side removal does not survive a mirroring failure.
Concretely: approving `exUser` (address `0xAA`) from `exStorePending`
with an unconfigured pinning service leaves a `pendingUsers` entry whose
lower-cased address is `0xaa`. -/
theorem c4_counterexample : ¬ claimC4 := by
  intro h
  obtain ⟨hpend, -, -⟩ := h exStorePending exUser 5 false none
    (by decide) (by decide)
  exact hpend
    { address := "0xAA", role := "student", timestamp := 5,
      transactionHash := some "admin-approved", paymentConfirmed := true,
      status := some "approved", ipfsHash := none }
    (by decide) rfl

/-- Claim C4 amended: approving a pending user removes every entry with
the user's lower-cased address from `pendingUsers`, appends the user to
`approvedUsers` with status "approved", paymentConfirmed true and a
fresh timestamp, and writes the direct role record; when the remote
mirroring succeeds the pending-side removal stands, but when it fails
the fallback inside `storeTransactionData` re-inserts the approval
record (same address) into `pendingUsers`, so only the approved-side
append and the role record survive intact. -/
theorem c4_approve (st : Store) (user : UserRec) (now : Nat)
    (configured : Bool) (response : Option String)
    (hp : isUsersVal (getItem st "pendingUsers") = true)
    (ha : isUsersVal (getItem st "approvedUsers") = true) :
    (∃ au : UserRec,
        usersOf (handleApprove st user now configured response)
            "approvedUsers"
          = usersOf st "approvedUsers" ++ [au] ∧
        au.address = user.address ∧ au.role = user.role ∧
        au.status = some "approved" ∧ au.paymentConfirmed = true ∧
        au.timestamp = now) ∧
    getItem (handleApprove st user now configured response)
        (roleKey (jsToLower user.address)) = some (Val.s user.role) ∧
    (configured = true → response.isSome = true →
      usersOf (handleApprove st user now configured response) "pendingUsers"
        = (usersOf st "pendingUsers").filter
            (fun u => jsToLower u.address != jsToLower user.address)) ∧
    (configured = false ∨ response = none →
      ∃ w ∈ usersOf (handleApprove st user now configured response)
          "pendingUsers",
        jsToLower w.address = jsToLower user.address) := by
  have hne_ap : ("approvedUsers" : String) ≠ "pendingUsers" := by decide
  have hne_pa : ("pendingUsers" : String) ≠ "approvedUsers" := by decide
  set a := jsToLower user.address with ha_def
  set pending2 := (usersOf st "pendingUsers").filter
      (fun u => jsToLower u.address != a) with hp2
  set st1 := setItem st "pendingUsers" (Val.users pending2) with hst1
  set approvedUser : UserRec :=
    { user with
        paymentConfirmed := true
        status := some "approved"
        timestamp := now } with hau
  set st2 := setItem st1 "approvedUsers"
      (Val.users (usersOf st "approvedUsers" ++ [approvedUser])) with hst2
  set st3 := setItem st2 (roleKey a) (Val.s user.role) with hst3
  have happ1 : usersOf st1 "approvedUsers" = usersOf st "approvedUsers" := by
    rw [hst1]
    simp [usersOf, getItem_setItem_ne _ _ _ _ hne_ap]
  have hpend3 : getItem st3 "pendingUsers" = some (Val.users pending2) := by
    rw [hst3, hst2, hst1]
    rw [getItem_setItem_ne _ _ _ _ (Ne.symm (roleKey_ne_pendingUsers a)),
      getItem_setItem_ne _ _ _ _ hne_pa, getItem_setItem_self]
  have happ3 : getItem st3 "approvedUsers"
      = some (Val.users (usersOf st "approvedUsers" ++ [approvedUser])) := by
    rw [hst3, hst2]
    rw [getItem_setItem_ne _ _ _ _ (Ne.symm (roleKey_ne_approvedUsers a)),
      getItem_setItem_self]
  have hrole3 : getItem st3 (roleKey a) = some (Val.s user.role) := by
    rw [hst3]; exact getItem_setItem_self _ _ _
  have hAppEq : handleApprove st user now configured response =
      (match storeTransactionData st3
          { address := user.address, role := user.role, timestamp := now,
            transactionHash := some (jsOrStr user.transactionHash
              "admin-approved"),
            paymentConfirmed := true, status := some "approved",
            ipfsHash := user.ipfsHash } configured response with
        | (st4, Except.ok h) =>
            setItem st4 "approvedUsers"
              (Val.users (usersOf st "approvedUsers"
                ++ [{ approvedUser with ipfsHash := some h }]))
        | (st4, Except.error _) => st4) := by
    rw [handleApprove]
    rw [show parseUsersOr (getItem st "pendingUsers")
        = usersOf st "pendingUsers" from rfl]
    rw [← ha_def]
    rw [← hp2]
    rw [← hst1]
    rw [show parseUsersOr (getItem st1 "approvedUsers")
        = usersOf st1 "approvedUsers" from rfl, happ1]
  cases configured with
  | false =>
      set ad : UserRec :=
        { address := user.address, role := user.role, timestamp := now,
          transactionHash := some (jsOrStr user.transactionHash
            "admin-approved"),
          paymentConfirmed := true, status := some "approved",
          ipfsHash := user.ipfsHash } with had
      have hfin : handleApprove st user now false response
          = storeDataInLocalStorage st3 ad := by
        rw [hAppEq]
        simp [storeTransactionData]
      have hpendfin : getItem (storeDataInLocalStorage st3 ad) "pendingUsers"
          = some (Val.users (upsertUser pending2 ad)) := by
        have := storeDataInLocalStorage_pending st3 ad
          (by rw [hpend3]; rfl)
        rwa [usersOf_users st3 "pendingUsers" pending2 hpend3] at this
      refine ⟨⟨approvedUser, ?_, rfl, rfl, rfl, rfl, rfl⟩, ?_, ?_, ?_⟩
      · rw [hfin]
        apply usersOf_users
        rw [storeDataInLocalStorage_frame _ _ _ hne_ap]
        exact happ3
      · rw [hfin]
        rw [storeDataInLocalStorage_frame _ _ _ (roleKey_ne_pendingUsers a)]
        exact hrole3
      · intro hc; cases hc
      · intro _
        refine ⟨ad, ?_, rfl⟩
        rw [hfin, usersOf_users _ _ _ hpendfin]
        exact mem_upsertUser _ _
  | true =>
      cases response with
      | none =>
          set ad : UserRec :=
            { address := user.address, role := user.role, timestamp := now,
              transactionHash := some (jsOrStr user.transactionHash
                "admin-approved"),
              paymentConfirmed := true, status := some "approved",
              ipfsHash := user.ipfsHash } with had
          have hfin : handleApprove st user now true none
              = storeDataInLocalStorage st3 ad := by
            rw [hAppEq]
            simp [storeTransactionData]
          have hpendfin : getItem (storeDataInLocalStorage st3 ad)
              "pendingUsers" = some (Val.users (upsertUser pending2 ad)) := by
            have := storeDataInLocalStorage_pending st3 ad
              (by rw [hpend3]; rfl)
            rwa [usersOf_users st3 "pendingUsers" pending2 hpend3] at this
          refine ⟨⟨approvedUser, ?_, rfl, rfl, rfl, rfl, rfl⟩, ?_, ?_, ?_⟩
          · rw [hfin]
            apply usersOf_users
            rw [storeDataInLocalStorage_frame _ _ _ hne_ap]
            exact happ3
          · rw [hfin]
            rw [storeDataInLocalStorage_frame _ _ _
              (roleKey_ne_pendingUsers a)]
            exact hrole3
          · intro _ hc; cases hc
          · intro _
            refine ⟨ad, ?_, rfl⟩
            rw [hfin, usersOf_users _ _ _ hpendfin]
            exact mem_upsertUser _ _
      | some hsh =>
          set ad : UserRec :=
            { address := user.address, role := user.role, timestamp := now,
              transactionHash := some (jsOrStr user.transactionHash
                "admin-approved"),
              paymentConfirmed := true, status := some "approved",
              ipfsHash := user.ipfsHash } with had
          have hfin : handleApprove st user now true (some hsh)
              = setItem (storeTxHashMapping st3 ad.address
                  (ad.transactionHash.getD "") hsh) "approvedUsers"
                (Val.users (usersOf st "approvedUsers"
                  ++ [{ approvedUser with ipfsHash := some hsh }])) := by
            rw [hAppEq]
            simp [storeTransactionData]
          refine ⟨⟨{ approvedUser with ipfsHash := some hsh }, ?_, rfl, rfl,
              rfl, rfl, rfl⟩, ?_, ?_, ?_⟩
          · rw [hfin]
            apply usersOf_users
            exact getItem_setItem_self _ _ _
          · rw [hfin]
            rw [getItem_setItem_ne _ _ _ _ (roleKey_ne_approvedUsers a)]
            rw [storeTxHashMapping_frame _ _ _ _ _ (roleKey_ne_txMappings a)
              (roleKey_ne_ipfsKey a _)]
            exact hrole3
          · intro _ _
            rw [hfin]
            apply usersOf_users
            rw [getItem_setItem_ne _ _ _ _ hne_pa]
            rw [storeTxHashMapping_frame _ _ _ _ _ (by decide)
              (pendingUsers_ne_ipfsKey _)]
            exact hpend3
          · rintro (hc | hc) <;> cases hc

/-- Witness for `c4_approve` at concrete inputs (mirroring failure). -/
theorem c4_approve_witness :
    (∃ au : UserRec,
        usersOf (handleApprove exStorePending exUser 5 false none)
            "approvedUsers"
          = usersOf exStorePending "approvedUsers" ++ [au] ∧
        au.address = exUser.address ∧ au.role = exUser.role ∧
        au.status = some "approved" ∧ au.paymentConfirmed = true ∧
        au.timestamp = 5) ∧
    getItem (handleApprove exStorePending exUser 5 false none)
        (roleKey (jsToLower exUser.address)) = some (Val.s exUser.role) ∧
    (false = true → (none : Option String).isSome = true →
      usersOf (handleApprove exStorePending exUser 5 false none)
          "pendingUsers"
        = (usersOf exStorePending "pendingUsers").filter
            (fun u => jsToLower u.address != jsToLower exUser.address)) ∧
    (false = false ∨ (none : Option String) = none →
      ∃ w ∈ usersOf (handleApprove exStorePending exUser 5 false none)
          "pendingUsers",
        jsToLower w.address = jsToLower exUser.address) :=
  c4_approve exStorePending exUser 5 false none (by decide) (by decide)

theorem charToLower_idem (c : Char) : c.toLower.toLower = c.toLower := by
  unfold Char.toLower
  by_cases h : c.toNat ≥ 65 ∧ c.toNat ≤ 90
  · rw [if_pos h]
    have hval : Nat.isValidChar (c.toNat + 32) := by
      left
      omega
    have htn : (Char.ofNat (c.toNat + 32)).toNat = c.toNat + 32 := by
      rw [Char.ofNat, dif_pos hval]
      simp [Char.ofNatAux, Char.toNat, UInt32.toNat, BitVec.toNat_ofNatLt]
    rw [if_neg]
    rw [htn]
    omega
  · rw [if_neg h, if_neg h]

theorem jsToLower_idem (s : String) :
    jsToLower (jsToLower s) = jsToLower s := by
  simp only [jsToLower, List.map_map]
  congr 1
  apply List.map_congr_left
  intro a _
  exact charToLower_idem a

theorem ne_of_data_take_ne (n : Nat) {s t : String}
    (h : s.data.take n ≠ t.data.take n) : s ≠ t := fun e => h (by rw [e])

theorem profileKey_ne_pendingUsers (a : String) :
    "profile_" ++ a ≠ "pendingUsers" := by
  apply ne_of_data_take_ne 2
  rw [String.data_append, List.take_append_of_le_length (by decide)]
  decide

theorem addrKeys_append (l₁ l₂ : List UserRec) :
    addrKeys (l₁ ++ l₂) = addrKeys l₁ ++ addrKeys l₂ := by
  simp [addrKeys]

theorem nodup_append_singleton {α : Type} (l : List α) (a : α) :
    (l ++ [a]).Nodup ↔ l.Nodup ∧ a ∉ l := by
  simp [List.nodup_append]

theorem addrKeys_filter_nodup (l : List UserRec) (p : UserRec → Bool)
    (h : (addrKeys l).Nodup) : (addrKeys (l.filter p)).Nodup :=
  h.sublist ((List.filter_sublist l).map _)

theorem mem_addrKeys {x : String} {l : List UserRec} :
    x ∈ addrKeys l ↔ ∃ u ∈ l, jsToLower u.address = x := by
  simp [addrKeys]

theorem addrKeys_upsert (l : List UserRec) (d : UserRec) :
    addrKeys (upsertUser l d)
      = if jsToLower d.address ∈ addrKeys l then addrKeys l
        else addrKeys l ++ [jsToLower d.address] := by
  induction l with
  | nil => simp [upsertUser, addrKeys]
  | cons u t ih =>
      by_cases hb : (jsToLower u.address == jsToLower d.address) = true
      · have he : jsToLower u.address = jsToLower d.address := by
          simpa using hb
        simp only [upsertUser, hb, if_pos]
        simp only [addrKeys, List.map_cons]
        rw [if_pos (by rw [← he]; exact List.mem_cons_self _ _)]
        rw [he]
      · have hne : jsToLower u.address ≠ jsToLower d.address := by
          simpa using hb
        simp only [upsertUser, hb]
        simp only [if_false, Bool.false_eq_true]
        have hcons : addrKeys (u :: upsertUser t d)
            = jsToLower u.address :: addrKeys (upsertUser t d) := rfl
        have hcons2 : addrKeys (u :: t)
            = jsToLower u.address :: addrKeys t := rfl
        rw [hcons, hcons2, ih]
        by_cases hm : jsToLower d.address ∈ addrKeys t
        · rw [if_pos hm, if_pos (List.mem_cons_of_mem _ hm)]
        · rw [if_neg hm, if_neg ?_, List.cons_append]
          intro hc
          rcases List.mem_cons.mp hc with he | hm'
          · exact hne he.symm
          · exact hm hm'

theorem nodup_upsert (l : List UserRec) (d : UserRec)
    (h : (addrKeys l).Nodup) : (addrKeys (upsertUser l d)).Nodup := by
  rw [addrKeys_upsert]
  by_cases hm : jsToLower d.address ∈ addrKeys l
  · rw [if_pos hm]; exact h
  · rw [if_neg hm]
    exact (nodup_append_singleton _ _).mpr ⟨h, hm⟩

theorem nodup_filter_push (l : List UserRec) (w : UserRec) (a : String)
    (hkey : jsToLower w.address = a) (h : (addrKeys l).Nodup) :
    (addrKeys (l.filter (fun u => jsToLower u.address != a) ++ [w])).Nodup := by
  rw [addrKeys_append]
  have hw : addrKeys [w] = [a] := by simp [addrKeys, hkey]
  rw [hw]
  refine (nodup_append_singleton _ _).mpr ⟨addrKeys_filter_nodup _ _ h, ?_⟩
  intro hmem
  obtain ⟨u, hu, hku⟩ := mem_addrKeys.mp hmem
  obtain ⟨-, hp⟩ := List.mem_filter.mp hu
  rw [hku] at hp
  simp at hp

theorem handleApprove_stores (st : Store) (user : UserRec) (now : Nat)
    (configured : Bool) (response : Option String) :
    (∃ au : UserRec, au.address = user.address ∧
      usersOf (handleApprove st user now configured response) "approvedUsers"
        = usersOf st "approvedUsers" ++ [au]) ∧
    usersOf (handleApprove st user now configured response) "pendingUsers"
      = (if configured = true ∧ response.isSome = true
         then (usersOf st "pendingUsers").filter
             (fun w => jsToLower w.address != jsToLower user.address)
         else upsertUser ((usersOf st "pendingUsers").filter
             (fun w => jsToLower w.address != jsToLower user.address))
           { address := user.address, role := user.role, timestamp := now,
             transactionHash := some (jsOrStr user.transactionHash
               "admin-approved"),
             paymentConfirmed := true, status := some "approved",
             ipfsHash := user.ipfsHash }) := by
  have hne_ap : ("approvedUsers" : String) ≠ "pendingUsers" := by decide
  have hne_pa : ("pendingUsers" : String) ≠ "approvedUsers" := by decide
  set a := jsToLower user.address with ha_def
  set pending2 := (usersOf st "pendingUsers").filter
      (fun u => jsToLower u.address != a) with hp2
  set st1 := setItem st "pendingUsers" (Val.users pending2) with hst1
  set approvedUser : UserRec :=
    { user with
        paymentConfirmed := true
        status := some "approved"
        timestamp := now } with hau
  set st2 := setItem st1 "approvedUsers"
      (Val.users (usersOf st "approvedUsers" ++ [approvedUser])) with hst2
  set st3 := setItem st2 (roleKey a) (Val.s user.role) with hst3
  have happ1 : usersOf st1 "approvedUsers" = usersOf st "approvedUsers" := by
    rw [hst1]
    simp [usersOf, getItem_setItem_ne _ _ _ _ hne_ap]
  have hpend3 : getItem st3 "pendingUsers" = some (Val.users pending2) := by
    rw [hst3, hst2, hst1]
    rw [getItem_setItem_ne _ _ _ _ (Ne.symm (roleKey_ne_pendingUsers a)),
      getItem_setItem_ne _ _ _ _ hne_pa, getItem_setItem_self]
  have happ3 : getItem st3 "approvedUsers"
      = some (Val.users (usersOf st "approvedUsers" ++ [approvedUser])) := by
    rw [hst3, hst2]
    rw [getItem_setItem_ne _ _ _ _ (Ne.symm (roleKey_ne_approvedUsers a)),
      getItem_setItem_self]
  have hAppEq : handleApprove st user now configured response =
      (match storeTransactionData st3
          { address := user.address, role := user.role, timestamp := now,
            transactionHash := some (jsOrStr user.transactionHash
              "admin-approved"),
            paymentConfirmed := true, status := some "approved",
            ipfsHash := user.ipfsHash } configured response with
        | (st4, Except.ok h) =>
            setItem st4 "approvedUsers"
              (Val.users (usersOf st "approvedUsers"
                ++ [{ approvedUser with ipfsHash := some h }]))
        | (st4, Except.error _) => st4) := by
    rw [handleApprove]
    rw [show parseUsersOr (getItem st "pendingUsers")
        = usersOf st "pendingUsers" from rfl]
    rw [← ha_def]
    rw [← hp2]
    rw [← hst1]
    rw [show parseUsersOr (getItem st1 "approvedUsers")
        = usersOf st1 "approvedUsers" from rfl, happ1]
  cases configured with
  | false =>
      set ad : UserRec :=
        { address := user.address, role := user.role, timestamp := now,
          transactionHash := some (jsOrStr user.transactionHash
            "admin-approved"),
          paymentConfirmed := true, status := some "approved",
          ipfsHash := user.ipfsHash } with had
      have hfin : handleApprove st user now false response
          = storeDataInLocalStorage st3 ad := by
        rw [hAppEq]
        simp [storeTransactionData]
      have hpendfin : getItem (storeDataInLocalStorage st3 ad) "pendingUsers"
          = some (Val.users (upsertUser pending2 ad)) := by
        have := storeDataInLocalStorage_pending st3 ad
          (by rw [hpend3]; rfl)
        rwa [usersOf_users st3 "pendingUsers" pending2 hpend3] at this
      constructor
      · refine ⟨approvedUser, rfl, ?_⟩
        rw [hfin]
        apply usersOf_users
        rw [storeDataInLocalStorage_frame _ _ _ hne_ap]
        exact happ3
      · rw [if_neg (by simp)]
        rw [hfin, usersOf_users _ _ _ hpendfin]
  | true =>
      cases response with
      | none =>
          set ad : UserRec :=
            { address := user.address, role := user.role, timestamp := now,
              transactionHash := some (jsOrStr user.transactionHash
                "admin-approved"),
              paymentConfirmed := true, status := some "approved",
              ipfsHash := user.ipfsHash } with had
          have hfin : handleApprove st user now true none
              = storeDataInLocalStorage st3 ad := by
            rw [hAppEq]
            simp [storeTransactionData]
          have hpendfin : getItem (storeDataInLocalStorage st3 ad)
              "pendingUsers" = some (Val.users (upsertUser pending2 ad)) := by
            have := storeDataInLocalStorage_pending st3 ad
              (by rw [hpend3]; rfl)
            rwa [usersOf_users st3 "pendingUsers" pending2 hpend3] at this
          constructor
          · refine ⟨approvedUser, rfl, ?_⟩
            rw [hfin]
            apply usersOf_users
            rw [storeDataInLocalStorage_frame _ _ _ hne_ap]
            exact happ3
          · rw [if_neg (by simp)]
            rw [hfin, usersOf_users _ _ _ hpendfin]
      | some hsh =>
          set ad : UserRec :=
            { address := user.address, role := user.role, timestamp := now,
              transactionHash := some (jsOrStr user.transactionHash
                "admin-approved"),
              paymentConfirmed := true, status := some "approved",
              ipfsHash := user.ipfsHash } with had
          have hfin : handleApprove st user now true (some hsh)
              = setItem (storeTxHashMapping st3 ad.address
                  (ad.transactionHash.getD "") hsh) "approvedUsers"
                (Val.users (usersOf st "approvedUsers"
                  ++ [{ approvedUser with ipfsHash := some hsh }])) := by
            rw [hAppEq]
            simp [storeTransactionData]
          constructor
          · refine ⟨{ approvedUser with ipfsHash := some hsh }, rfl, ?_⟩
            rw [hfin]
            apply usersOf_users
            exact getItem_setItem_self _ _ _
          · rw [if_pos ⟨rfl, rfl⟩]
            rw [hfin]
            apply usersOf_users
            rw [getItem_setItem_ne _ _ _ _ hne_pa]
            rw [storeTxHashMapping_frame _ _ _ _ _ (by decide)
              (pendingUsers_ne_ipfsKey _)]
            exact hpend3

theorem handleRoleSelect_frame (st : Store) (address role : String)
    (now : Nat) (k : String)
    (hk1 : k ≠ "approvedUsers") (hk2 : k ≠ roleKey (jsToLower address))
    (hk3 : k ≠ "user_role_" ++ jsToLower address)
    (hk4 : k ≠ "onboarded_" ++ jsToLower address)
    (hk5 : k ≠ "profile_" ++ jsToLower address) :
    getItem (handleRoleSelect st address role now) k = getItem st k := by
  simp only [handleRoleSelect]
  rw [getItem_setItem_ne _ _ _ _ hk5, getItem_setItem_ne _ _ _ _ hk4,
    getItem_setItem_ne _ _ _ _ hk3, getItem_setItem_ne _ _ _ _ hk2,
    getItem_setItem_ne _ _ _ _ hk1]

theorem handleRoleSelect_approved (st : Store) (address role : String)
    (now : Nat) :
    getItem (handleRoleSelect st address role now) "approvedUsers"
      = some (Val.users ((usersOf st "approvedUsers").filter
          (fun u => jsToLower u.address != jsToLower address)
          ++ [{ address := jsToLower address, role := role, timestamp := now,
                paymentConfirmed := true, status := some "approved" }])) := by
  simp only [handleRoleSelect]
  rw [getItem_setItem_ne _ _ _ _
      (Ne.symm (append_key_ne_const "profile_" _ _ 'p' (by decide) (by decide))),
    getItem_setItem_ne _ _ _ _
      (Ne.symm (append_key_ne_const "onboarded_" _ _ 'o' (by decide) (by decide))),
    getItem_setItem_ne _ _ _ _
      (Ne.symm (append_key_ne_const "user_role_" _ _ 'u' (by decide) (by decide))),
    getItem_setItem_ne _ _ _ _ (Ne.symm (roleKey_ne_approvedUsers _)),
    getItem_setItem_self]
  rfl

theorem storeData_nodup_pending (st : Store) (d : UserRec)
    (hp : (addrKeys (usersOf st "pendingUsers")).Nodup) :
    (addrKeys (usersOf (storeDataInLocalStorage st d) "pendingUsers")).Nodup := by
  cases hg : getItem st "pendingUsers" with
  | none =>
      simp only [storeDataInLocalStorage, hg]
      rw [usersOf_users _ _ _ (getItem_setItem_self _ _ _)]
      simp [addrKeys]
  | some v =>
      cases v with
      | users l =>
          simp only [storeDataInLocalStorage, hg, jsTruthy_users, if_pos]
          rw [usersOf_users _ _ _ (getItem_setItem_self _ _ _)]
          apply nodup_upsert
          rwa [show usersOf st "pendingUsers" = l by
            simp [usersOf, parseUsersOr, hg, jsTruthy_users]] at hp
      | s w =>
          simp only [storeDataInLocalStorage, hg]
          split_ifs with ht
          · exact hp
          · rw [usersOf_users _ _ _ (getItem_setItem_self _ _ _)]
            simp [addrKeys]
      | creds l =>
          simp only [storeDataInLocalStorage, hg]
          split_ifs with ht
          · exact hp
          · rw [usersOf_users _ _ _ (getItem_setItem_self _ _ _)]
            simp [addrKeys]
      | hist l =>
          simp only [storeDataInLocalStorage, hg]
          split_ifs with ht
          · exact hp
          · rw [usersOf_users _ _ _ (getItem_setItem_self _ _ _)]
            simp [addrKeys]
      | strs l =>
          simp only [storeDataInLocalStorage, hg]
          split_ifs with ht
          · exact hp
          · rw [usersOf_users _ _ _ (getItem_setItem_self _ _ _)]
            simp [addrKeys]
      | smap l =>
          simp only [storeDataInLocalStorage, hg]
          split_ifs with ht
          · exact hp
          · rw [usersOf_users _ _ _ (getItem_setItem_self _ _ _)]
            simp [addrKeys]
      | profile p =>
          simp only [storeDataInLocalStorage, hg]
          split_ifs with ht
          · exact hp
          · rw [usersOf_users _ _ _ (getItem_setItem_self _ _ _)]
            simp [addrKeys]

theorem storeData_users_frame (st : Store) (d : UserRec) (k : String)
    (h : k ≠ "pendingUsers") :
    usersOf (storeDataInLocalStorage st d) k = usersOf st k := by
  simp [usersOf, storeDataInLocalStorage_frame st d k h]

theorem addUserFinish_nodup (st1 : Store) (newUser2 : UserRec)
    (addr role : String)
    (hp1 : (addrKeys (usersOf st1 "pendingUsers")).Nodup)
    (ha1 : (addrKeys (usersOf st1 "approvedUsers")).Nodup)
    (haddr : newUser2.address = jsToLower addr) :
    bothNodup
      (if (usersOf st1 "approvedUsers").any
          (fun u => jsToLower u.address == jsToLower addr) then st1
       else setItem (setItem st1 "approvedUsers"
          (Val.users (usersOf st1 "approvedUsers" ++ [newUser2])))
          (roleKey (jsToLower addr)) (Val.s role)) := by
  by_cases hex : (usersOf st1 "approvedUsers").any
      (fun u => jsToLower u.address == jsToLower addr) = true
  · rw [if_pos hex]
    exact ⟨hp1, ha1⟩
  · rw [if_neg hex]
    constructor
    · show (addrKeys (usersOf _ "pendingUsers")).Nodup
      rw [show usersOf (setItem (setItem st1 "approvedUsers"
          (Val.users (usersOf st1 "approvedUsers" ++ [newUser2])))
          (roleKey (jsToLower addr)) (Val.s role)) "pendingUsers"
          = usersOf st1 "pendingUsers" by
        simp [usersOf,
          getItem_setItem_ne _ _ _ _ (Ne.symm (roleKey_ne_pendingUsers _)),
          getItem_setItem_ne _ _ _ _
            (show ("pendingUsers" : String) ≠ "approvedUsers" by decide)]]
      exact hp1
    · show (addrKeys (usersOf _ "approvedUsers")).Nodup
      rw [usersOf_users _ _ _ (by
        rw [getItem_setItem_ne _ _ _ _ (Ne.symm (roleKey_ne_approvedUsers _)),
          getItem_setItem_self])]
      rw [addrKeys_append]
      have hone : addrKeys [newUser2] = [jsToLower addr] := by
        simp [addrKeys, haddr, jsToLower_idem]
      rw [hone]
      refine (nodup_append_singleton _ _).mpr ⟨ha1, ?_⟩
      intro hmem
      obtain ⟨u, hu, hku⟩ := mem_addrKeys.mp hmem
      apply hex
      rw [List.any_eq_true]
      exact ⟨u, hu, by rw [hku]; exact beq_self_eq_true _⟩

/-- Claim C6 (as stated) is false: the admin approve handler appends to
`approvedUsers` without removing an existing entry with the same
lower-cased address.  Concretely, approving `exUser` when its address is
already in `approvedUsers` (store `exStoreApproved`) yields two entries
with address `0xaa`. -/
theorem c6_counterexample : ¬ claimC6 := by
  intro h
  have h3 := h.2.2.1 exStoreApproved exUser 1 false none
    ⟨by decide, by decide⟩
  have h4 := h3.2
  exact absurd h4 (by decide)

/-- Claim C6 amended: the fallback persistence, the role-selection write
and the admin add operation each de-duplicate by lower-cased address and
preserve "each address appears at most once in `pendingUsers` and in
`approvedUsers`"; admin approve preserves it for `pendingUsers` only —
its `approvedUsers` append performs no de-duplication, so approving a
user whose address is already approved makes that address appear more
than once in `approvedUsers`. -/
theorem c6_dedup :
    (∀ (st : Store) (d : UserRec),
        bothNodup st → bothNodup (storeDataInLocalStorage st d)) ∧
    (∀ (st : Store) (address role : String) (now : Nat),
        bothNodup st → bothNodup (handleRoleSelect st address role now)) ∧
    (∀ (st : Store) (u : UserRec) (now : Nat) (cfg : Bool)
        (resp : Option String),
        bothNodup st →
        (addrKeys (usersOf (handleApprove st u now cfg resp)
            "pendingUsers")).Nodup) ∧
    (∀ (st : Store) (u : UserRec) (now : Nat) (cfg : Bool)
        (resp : Option String),
        (∃ w ∈ usersOf st "approvedUsers",
            jsToLower w.address = jsToLower u.address) →
        ¬ (addrKeys (usersOf (handleApprove st u now cfg resp)
            "approvedUsers")).Nodup) ∧
    (∀ (st : Store) (addr role : String) (now : Nat) (tx : String)
        (cfg : Bool) (resp : Option String),
        bothNodup st →
        bothNodup (handleAddUser st addr role now tx cfg resp)) := by
  refine ⟨?_, ?_, ?_, ?_, ?_⟩
  · -- fallback persistence
    rintro st d ⟨hp, ha⟩
    exact ⟨storeData_nodup_pending st d hp,
      by rw [storeData_users_frame st d _ (by decide)]; exact ha⟩
  · -- role selection
    rintro st address role now ⟨hp, ha⟩
    constructor
    · show (addrKeys (usersOf _ "pendingUsers")).Nodup
      rw [show usersOf (handleRoleSelect st address role now) "pendingUsers"
          = usersOf st "pendingUsers" by
        simp [usersOf, handleRoleSelect_frame st address role now
          "pendingUsers" (by decide)
          (Ne.symm (roleKey_ne_pendingUsers _))
          (Ne.symm (append_key_ne_const "user_role_" _ _ 'u'
            (by decide) (by decide)))
          (Ne.symm (append_key_ne_const "onboarded_" _ _ 'o'
            (by decide) (by decide)))
          (Ne.symm (profileKey_ne_pendingUsers _))]]
      exact hp
    · show (addrKeys (usersOf _ "approvedUsers")).Nodup
      rw [usersOf_users _ _ _ (handleRoleSelect_approved st address role now)]
      exact nodup_filter_push _ _ _ (jsToLower_idem address) ha
  · -- admin approve, pending side
    rintro st u now cfg resp ⟨hp, -⟩
    obtain ⟨-, hpend⟩ := handleApprove_stores st u now cfg resp
    rw [hpend]
    split_ifs
    · exact addrKeys_filter_nodup _ _ hp
    · exact nodup_upsert _ _ (addrKeys_filter_nodup _ _ hp)
  · -- admin approve, approved side duplication
    rintro st u now cfg resp ⟨w, hw, hkey⟩ hnodup
    obtain ⟨⟨au, hau, happ⟩, -⟩ := handleApprove_stores st u now cfg resp
    rw [happ, addrKeys_append] at hnodup
    have hone : addrKeys [au] = [jsToLower u.address] := by
      simp [addrKeys, hau]
    rw [hone] at hnodup
    exact ((nodup_append_singleton _ _).mp hnodup).2
      (mem_addrKeys.mpr ⟨w, hw, hkey⟩)
  · -- admin add
    rintro st addr role now tx cfg resp ⟨hp, ha⟩
    cases cfg with
    | false =>
        have hfin : handleAddUser st addr role now tx false resp
            = (if (usersOf st "approvedUsers").any
                (fun u => jsToLower u.address == jsToLower addr) then st
               else setItem (setItem st "approvedUsers"
                  (Val.users (usersOf st "approvedUsers"
                    ++ [{ address := jsToLower addr, role := role,
                          timestamp := now, paymentConfirmed := true,
                          transactionHash := some tx,
                          status := some "approved" }])))
                  (roleKey (jsToLower addr)) (Val.s role)) := rfl
        rw [hfin]
        exact addUserFinish_nodup st _ addr role hp ha rfl
    | true =>
        cases resp with
        | none =>
            have hfr : usersOf (storeDataInLocalStorage st
                { address := jsToLower addr, role := role, timestamp := now,
                  paymentConfirmed := true, transactionHash := some tx,
                  status := some "approved" }) "approvedUsers"
                = usersOf st "approvedUsers" :=
              storeData_users_frame st _ _ (by decide)
            have hfin : handleAddUser st addr role now tx true none
                = (if (usersOf (storeDataInLocalStorage st
                    { address := jsToLower addr, role := role,
                      timestamp := now, paymentConfirmed := true,
                      transactionHash := some tx,
                      status := some "approved" }) "approvedUsers").any
                    (fun u => jsToLower u.address == jsToLower addr)
                   then storeDataInLocalStorage st
                    { address := jsToLower addr, role := role,
                      timestamp := now, paymentConfirmed := true,
                      transactionHash := some tx,
                      status := some "approved" }
                   else setItem (setItem (storeDataInLocalStorage st
                    { address := jsToLower addr, role := role,
                      timestamp := now, paymentConfirmed := true,
                      transactionHash := some tx,
                      status := some "approved" }) "approvedUsers"
                      (Val.users (usersOf (storeDataInLocalStorage st
                        { address := jsToLower addr, role := role,
                          timestamp := now, paymentConfirmed := true,
                          transactionHash := some tx,
                          status := some "approved" }) "approvedUsers"
                        ++ [{ address := jsToLower addr, role := role,
                              timestamp := now, paymentConfirmed := true,
                              transactionHash := some tx,
                              status := some "approved" }])))
                      (roleKey (jsToLower addr)) (Val.s role)) := rfl
            rw [hfin]
            exact addUserFinish_nodup _ _ addr role
              (storeData_nodup_pending st _ hp) (by rw [hfr]; exact ha) rfl
        | some hsh =>
            have hfr : ∀ k, k ≠ "txToIpfsMappings" →
                k ≠ "ipfsMappings_" ++ jsToLower (jsToLower addr) →
                usersOf (storeTxHashMapping st (jsToLower addr) tx hsh) k
                  = usersOf st k := by
              intro k h1 h2
              simp [usersOf, storeTxHashMapping_frame st _ _ _ k h1 h2]
            have hfin : handleAddUser st addr role now tx true (some hsh)
                = (if (usersOf (storeTxHashMapping st (jsToLower addr) tx
                    hsh) "approvedUsers").any
                    (fun u => jsToLower u.address == jsToLower addr)
                   then storeTxHashMapping st (jsToLower addr) tx hsh
                   else setItem (setItem (storeTxHashMapping st
                      (jsToLower addr) tx hsh) "approvedUsers"
                      (Val.users (usersOf (storeTxHashMapping st
                          (jsToLower addr) tx hsh) "approvedUsers"
                        ++ [{ address := jsToLower addr, role := role,
                              timestamp := now, paymentConfirmed := true,
                              transactionHash := some tx,
                              ipfsHash := some hsh,
                              status := some "approved" }])))
                      (roleKey (jsToLower addr)) (Val.s role)) := rfl
            rw [hfin]
            exact addUserFinish_nodup _ _ addr role
              (by rw [hfr _ (by decide) (Ne.symm (append_key_ne_const
                  "ipfsMappings_" _ _ 'i' (by decide) (by decide)))]
                  exact hp)
              (by rw [hfr _ (by decide) (Ne.symm (append_key_ne_const
                  "ipfsMappings_" _ _ 'i' (by decide) (by decide)))]
                  exact ha)
              rfl

/-- Witness for `c6_dedup` at concrete inputs. -/
theorem c6_dedup_witness :
    bothNodup (storeDataInLocalStorage exStorePending exUser) ∧
    bothNodup (handleRoleSelect [] "0xS" "student" 2) ∧
    (addrKeys (usersOf (handleApprove exStorePending exUser 1 false none)
        "pendingUsers")).Nodup ∧
    ¬ (addrKeys (usersOf (handleApprove exStoreApproved exUser 1 false none)
        "approvedUsers")).Nodup ∧
    bothNodup (handleAddUser [] "0xN" "institution" 3 "tx1" false none) :=
  ⟨c6_dedup.1 exStorePending exUser ⟨by decide, by decide⟩,
   c6_dedup.2.1 [] "0xS" "student" 2 ⟨by decide, by decide⟩,
   c6_dedup.2.2.1 exStorePending exUser 1 false none ⟨by decide, by decide⟩,
   c6_dedup.2.2.2.1 exStoreApproved exUser 1 false none
     ⟨exUser, by decide, rfl⟩,
   c6_dedup.2.2.2.2 [] "0xN" "institution" 3 "tx1" false none
     ⟨by decide, by decide⟩⟩

theorem any_congr_mem {α : Type} (l : List α) (p q : α → Bool)
    (h : ∀ x ∈ l, p x = q x) : l.any p = l.any q := by
  induction l with
  | nil => rfl
  | cons x t ih =>
      simp only [List.any_cons]
      rw [h x (List.mem_cons_self _ _),
        ih (fun y hy => h y (List.mem_cons_of_mem _ hy))]

theorem allTruthy_mem (st : Store) (kv : String × Val)
    (hT : allTruthy st = true) (hm : kv ∈ st) : jsTruthy kv.snd = true :=
  List.all_eq_true.mp hT kv hm

theorem allTruthy_getItem (st : Store) (k : String) (v : Val)
    (hT : allTruthy st = true) (h : getItem st k = some v) :
    jsTruthy v = true := by
  unfold getItem at h
  cases hf : st.find? (fun kv => kv.fst == k) with
  | none => rw [hf] at h; cases h
  | some kv =>
      rw [hf] at h
      simp only [Option.map_some'] at h
      have hm := List.mem_of_find?_eq_some hf
      have h2 : kv.snd = v := by injection h
      have := allTruthy_mem st kv hT hm
      rwa [h2] at this

theorem m4_fst (st : Store) (a : String) (hT : allTruthy st = true) :
    (checkRoleM4 st a).fst = claimCheck4 st a := by
  unfold checkRoleM4 claimCheck4
  apply any_congr_mem
  intro kv hm
  rw [allTruthy_mem st kv hT hm, Bool.and_true]

theorem m3_spec (st : Store) (a : String) (hT : allTruthy st = true) :
    (checkRoleM3 st a).fst = (claimCheck3 st a || claimCheck4 st a) ∧
    (claimCheck3 st a = true →
      getItem (checkRoleM3 st a).snd (roleKey a) = some (Val.s "student")) ∧
    (claimCheck3 st a = false → (checkRoleM3 st a).snd = st) := by
  unfold checkRoleM3
  cases hf : st.find? (fun kv =>
      isTxKey kv.fst && jsTruthy kv.snd
        && jsIncludes (jsToLower (render kv.snd)) a) with
  | some kv =>
      have hc3 : claimCheck3 st a = true := by
        rw [claimCheck3, List.any_eq_true]
        have hm := List.mem_of_find?_eq_some hf
        have hp := List.find?_some hf
        refine ⟨kv, hm, ?_⟩
        simp only [Bool.and_eq_true] at hp ⊢
        tauto
      refine ⟨?_, ?_, ?_⟩
      · simp [hc3]
      · intro _; exact getItem_setItem_self _ _ _
      · intro hc; rw [hc3] at hc; cases hc
  | none =>
      have hc3 : claimCheck3 st a = false := by
        rw [claimCheck3]
        cases hany : st.any (fun kv =>
            isTxKey kv.fst && jsIncludes (jsToLower (render kv.snd)) a) with
        | false => rfl
        | true =>
            exfalso
            obtain ⟨kv, hm, hp⟩ := List.any_eq_true.mp hany
            have ht := allTruthy_mem st kv hT hm
            have hno := List.find?_eq_none.mp hf kv hm
            simp only [Bool.and_eq_true] at hp hno
            exact hno ⟨⟨hp.1, ht⟩, hp.2⟩
      rw [hc3, Bool.false_or]
      refine ⟨m4_fst st a hT, ?_, ?_⟩
      · intro hc; cases hc
      · intro _; rfl

theorem userMatches_eq (a : String) (u : UserRec) (h : a ≠ "") :
    userMatches a u = (jsToLower u.address == a) := by
  by_cases hu : u.address = ""
  · rw [hu]
    have he : jsToLower "" = "" := rfl
    rw [userMatches, hu, he]
    simp [beq_eq_false_iff_ne.mpr (Ne.symm h)]
  · rw [userMatches]
    have : (u.address != "") = true := by
      simpa using hu
    rw [this, Bool.true_and]

theorem m2_spec (st : Store) (a : String) (hT : allTruthy st = true)
    (hA : isUsersVal (getItem st "approvedUsers") = true) (hane : a ≠ "") :
    (checkRoleM2 st a).fst
      = (claimCheck2 st a || claimCheck3 st a || claimCheck4 st a) ∧
    (claimCheck2 st a = false → claimCheck3 st a = true →
      getItem (checkRoleM2 st a).snd (roleKey a) = some (Val.s "student")) := by
  unfold checkRoleM2
  cases hg : getItem st "approvedUsers" with
  | none =>
      have hc2 : claimCheck2 st a = false := by
        simp [claimCheck2, hg]
      obtain ⟨h3f, h3w, -⟩ := m3_spec st a hT
      rw [hc2, Bool.false_or]
      exact ⟨h3f, fun _ => h3w⟩
  | some v =>
      cases v with
      | users l =>
          have hc2eq : claimCheck2 st a
              = (l.find? (userMatches a)).isSome := by
            rw [claimCheck2, hg]
            rw [show (l.find? (userMatches a)).isSome
                = l.any (userMatches a) by
              cases hfa : l.find? (userMatches a) with
              | none =>
                  have hno := List.find?_eq_none.mp hfa
                  simp only [Option.isSome_none]
                  cases hany : l.any (userMatches a) with
                  | false => rfl
                  | true =>
                      obtain ⟨u, hu, hp⟩ := List.any_eq_true.mp hany
                      exact absurd hp (by simpa using hno u hu)
              | some u =>
                  simp only [Option.isSome_some]
                  have := List.find?_some hfa
                  rw [eq_comm, List.any_eq_true]
                  exact ⟨u, List.mem_of_find?_eq_some hfa, this⟩]
            exact (any_congr_mem l _ _
              (fun u _ => (userMatches_eq a u hane).symm))
          simp only [hg, jsTruthy_users, if_pos]
          cases hfa : l.find? (userMatches a) with
          | some u =>
              have hc2 : claimCheck2 st a = true := by
                rw [hc2eq, hfa]; rfl
              refine ⟨by simp [hc2], ?_⟩
              intro hc; rw [hc2] at hc; cases hc
          | none =>
              have hc2 : claimCheck2 st a = false := by
                rw [hc2eq, hfa]; rfl
              obtain ⟨h3f, h3w, -⟩ := m3_spec st a hT
              rw [hc2, Bool.false_or]
              exact ⟨h3f, fun _ => h3w⟩
      | s w => simp [isUsersVal, hg] at hA
      | creds l => simp [isUsersVal, hg] at hA
      | hist l => simp [isUsersVal, hg] at hA
      | strs l => simp [isUsersVal, hg] at hA
      | smap l => simp [isUsersVal, hg] at hA
      | profile p => simp [isUsersVal, hg] at hA

/-- Claim C1: under a well-shaped store (every stored value non-empty,
`approvedUsers` a users array) and a non-degenerate address,
`checkIfUserHasRole` returns true exactly when one of the four checks
matches — the direct role record, the approvedUsers list, a
transaction-keyed payload containing the lower-cased address, or any key
containing the address — and a match found only by the transaction-keyed
check writes the default role "student" to the direct record. -/
theorem c1_role_resolution (st : Store) (address : String)
    (hT : allTruthy st = true)
    (hA : isUsersVal (getItem st "approvedUsers") = true)
    (hane : jsToLower address ≠ "") :
    (checkIfUserHasRole st address).fst
      = (claimCheck1 st (jsToLower address)
         || claimCheck2 st (jsToLower address)
         || claimCheck3 st (jsToLower address)
         || claimCheck4 st (jsToLower address)) ∧
    (claimCheck1 st (jsToLower address) = false →
     claimCheck2 st (jsToLower address) = false →
     claimCheck3 st (jsToLower address) = true →
     getItem (checkIfUserHasRole st address).snd (roleKey (jsToLower address))
       = some (Val.s "student")) := by
  unfold checkIfUserHasRole
  cases hg : getItem st (roleKey (jsToLower address)) with
  | some v =>
      have hc1 : claimCheck1 st (jsToLower address) = true := by
        simp [claimCheck1, hg]
      have ht := allTruthy_getItem st _ v hT hg
      simp only [hg, ht, if_pos]
      refine ⟨by simp [hc1], ?_⟩
      intro hc; rw [hc1] at hc; cases hc
  | none =>
      have hc1 : claimCheck1 st (jsToLower address) = false := by
        simp [claimCheck1, hg]
      obtain ⟨h2f, h2w⟩ := m2_spec st (jsToLower address) hT hA hane
      simp only [hg]
      rw [hc1, Bool.false_or]
      exact ⟨h2f, fun _ => h2w⟩

/-- Witness for `c1_role_resolution` at a concrete store where only the
transaction-keyed fallback matches. -/
theorem c1_role_resolution_witness :
    (checkIfUserHasRole [("tx_1", Val.s "paid by 0xab")] "0xAB").fst
      = (claimCheck1 [("tx_1", Val.s "paid by 0xab")] (jsToLower "0xAB")
         || claimCheck2 [("tx_1", Val.s "paid by 0xab")] (jsToLower "0xAB")
         || claimCheck3 [("tx_1", Val.s "paid by 0xab")] (jsToLower "0xAB")
         || claimCheck4 [("tx_1", Val.s "paid by 0xab")] (jsToLower "0xAB")) ∧
    (claimCheck1 [("tx_1", Val.s "paid by 0xab")] (jsToLower "0xAB") = false →
     claimCheck2 [("tx_1", Val.s "paid by 0xab")] (jsToLower "0xAB") = false →
     claimCheck3 [("tx_1", Val.s "paid by 0xab")] (jsToLower "0xAB") = true →
     getItem (checkIfUserHasRole [("tx_1", Val.s "paid by 0xab")] "0xAB").snd
         (roleKey (jsToLower "0xAB")) = some (Val.s "student")) :=
  c1_role_resolution [("tx_1", Val.s "paid by 0xab")] "0xAB"
    (by decide) (by decide) (by decide)
